import Mathlib

/-!
# go-shorturl: the URL stores, the helpers and the middleware chain

A shallow embedding of `infra/database/memory/memory.go`,
`infra/database/sqlite/sqlite.go`, `pkg/utils/utils.go`,
`middleware/middleware.go` and `api/api.go` (`RegisterEndPoints`), followed by
the properties of the store contract and of the request processing.

Modelling conventions.

* A Go `string` is a Lean `String`; the store only compares strings for
  equality and tests them against `""`.
* A Go `map[string]V` is a partial function `String → Option V`; `m[k] = v` is
  `Function.update m k (some v)`, the two-valued lookup `v, ok := m[k]` is the
  `Option` itself.  A map that is ranged over (the decoded import document) is
  the list of its key/value pairs in the order the `range` loop visits them;
  the keys of such a list are pairwise distinct, the order is arbitrary.
* The store keeps `*URLStats` pointers.  Every pointer is allocated by `Save`
  or `Import` and is stored under one key only, so the map of pointers is a
  map of values.
* A Go `error` is an `Option String`: `none` is `nil`.
* Go's `int` is the 64-bit two's-complement integer: `Count++` wraps around.
* The mutex only serialises the calls; each operation is a function from the
  store before the call to its results and the store after the call.
* `encoding/json` and `crypto/rand` are parameters of the operations that
  call them.
-/

namespace memory

/-- Bit width of Go's `int` on the 64-bit targets the service is built for. -/
def intBits : Nat := 64

/-- Two's-complement wrap-around of an integer into the range of Go's `int`. -/
def wrapInt (x : Int) : Int :=
  (x + 2 ^ (intBits - 1)) % 2 ^ intBits - 2 ^ (intBits - 1)

/-- The statistics of a shortened URL (`type URLStats struct`). -/
structure URLStats where
  Count : Int
  LastIPs : List String
  Referrers : List String
  LastGeoLocation : String
deriving DecidableEq, Repr

/-- The store (`type URLStore struct`): the two maps guarded by the mutex. -/
structure URLStore where
  urls : String → Option String
  stats : String → Option URLStats

/-- The literal `&URLStats{LastIPs: []string{}, Referrers: []string{}}`: the
other two fields take their zero values. -/
def newStats : URLStats :=
  { Count := 0, LastIPs := [], Referrers := [], LastGeoLocation := "" }

/-- The constructor `NewURLStore`: two empty maps. -/
def NewURLStore : URLStore :=
  { urls := fun _ => none, stats := fun _ => none }

/-- The method `Save`: returns the (always `nil`) error and the store after. -/
def Save (s : URLStore) (shortURL originalURL : String) : Option String × URLStore :=
  (none,
   { urls := Function.update s.urls shortURL (some originalURL),
     stats := Function.update s.stats shortURL (some newStats) })

/-- The method `Get`: the two-valued map lookup (`""` is the zero value). -/
def Get (s : URLStore) (shortURL : String) : String × Bool :=
  match s.urls shortURL with
  | some originalURL => (originalURL, true)
  | none => ("", false)

/-- The method `GetStats`; `marshal` is `json.Marshal` at `*URLStats` (the
argument is `none` for the nil pointer of a missing key). -/
def GetStats (marshal : Option URLStats → Except String String)
    (s : URLStore) (shortURL : String) : String × Bool :=
  let stats := s.stats shortURL
  match marshal stats with
  | .error _ => ("", false)
  | .ok rr => (rr, stats.isSome)

/-- The method `UpdateURL`. -/
def UpdateURL (s : URLStore) (shortURL newOriginalURL : String) :
    Option String × URLStore :=
  match s.urls shortURL with
  | none => (some "short URL not found", s)
  | some _ =>
    (none, { s with urls := Function.update s.urls shortURL (some newOriginalURL) })

/-- The two statements `if len(l) >= 5 { l = l[1:] }; l = append(l, x)` that
`UpdateStats` runs on `LastIPs` and on `Referrers`. -/
def appendLast5 (l : List String) (x : String) : List String :=
  (if l.length ≥ 5 then l.drop 1 else l) ++ [x]

/-- The method `UpdateStats`. -/
def UpdateStats (s : URLStore) (shortURL ip referrer geoLocation : String) :
    Option String × URLStore :=
  match s.stats shortURL with
  | none => (some "short URL not found", s)
  | some stats =>
    let stats := { stats with Count := wrapInt (stats.Count + 1) }
    let stats := { stats with LastIPs := appendLast5 stats.LastIPs ip }
    let stats :=
      if referrer ≠ "" then
        { stats with Referrers := appendLast5 stats.Referrers referrer }
      else stats
    let stats := { stats with LastGeoLocation := geoLocation }
    (none, { s with stats := Function.update s.stats shortURL (some stats) })

/-- The method `Flush`: the old `urls` map, the `nil` error, and the store
with two fresh maps. -/
def Flush (s : URLStore) : (String → Option String) × Option String × URLStore :=
  (s.urls, none, { urls := fun _ => none, stats := fun _ => none })

/-- The method `Backup`; `marshal` is `json.Marshal` at `map[string]string`.
The store is only read. -/
def Backup (marshal : (String → Option String) → Except String (List (Fin 256)))
    (s : URLStore) : Except String (List (Fin 256)) :=
  marshal s.urls

/-- One iteration of the loop of `Import`. -/
def importEntry (s : URLStore) (e : String × String) : URLStore :=
  { urls := Function.update s.urls e.1 (some e.2),
    stats := Function.update s.stats e.1 (some newStats) }

/-- The method `Import`; `unmarshal` is `json.Unmarshal` into a
`map[string]string`, giving the entries in the order the loop visits them. -/
def Import (unmarshal : List (Fin 256) → Except String (List (String × String)))
    (s : URLStore) (data : List (Fin 256)) : Option String × URLStore :=
  match unmarshal data with
  | .error err => (some err, s)
  | .ok importedURLs => (none, importedURLs.foldl importEntry s)

/-- The arguments of one `UpdateStats` call on a fixed alias. -/
structure StatsCall where
  ip : String
  referrer : String
  geoLocation : String
deriving DecidableEq, Repr

/-- The store after the calls `UpdateStats(shortURL, c.ip, c.referrer,
c.geoLocation)` for `c` in `calls`, in order, starting from `s`. -/
def updateStatsAll (s : URLStore) (shortURL : String) (calls : List StatsCall) :
    URLStore :=
  calls.foldl (fun st c => (UpdateStats st shortURL c.ip c.referrer c.geoLocation).2) s

/-- The last `n` elements of a list (the whole list when it is shorter). -/
def lastN (n : Nat) (l : List String) : List String :=
  l.drop (l.length - n)

/-- A call of one of the methods of the store. -/
inductive Op where
  | save (shortURL originalURL : String)
  | get (shortURL : String)
  | getStats (shortURL : String)
  | updateURL (shortURL newOriginalURL : String)
  | updateStats (shortURL ip referrer geoLocation : String)
  | flush
  | backup
  | importDoc (data : List (Fin 256))

/-- The store after one call, whether the call succeeds or fails. -/
def step (unmarshal : List (Fin 256) → Except String (List (String × String)))
    (s : URLStore) : Op → URLStore
  | .save a u => (Save s a u).2
  | .get _ => s
  | .getStats _ => s
  | .updateURL a u => (UpdateURL s a u).2
  | .updateStats a ip referrer geo => (UpdateStats s a ip referrer geo).2
  | .flush => (Flush s).2.2
  | .backup => s
  | .importDoc data => (Import unmarshal s data).2

/-- The store after a sequence of calls on the store made by `NewURLStore`. -/
def run (unmarshal : List (Fin 256) → Except String (List (String × String)))
    (ops : List Op) : URLStore :=
  ops.foldl (step unmarshal) NewURLStore

/-- An alias has statistics exactly when it has a mapping. -/
def Paired (s : URLStore) : Prop :=
  ∀ a, (s.stats a).isSome = (s.urls a).isSome

end memory

namespace utils

/-- The alphabet `encodeURL` of `encoding/base64`. -/
def encodeURL : List Char :=
  "ABCDEFGHIJKLMNOPQRSTUVWXYZabcdefghijklmnopqrstuvwxyz0123456789-_".data

/-- The padding character `StdPadding` of `base64.URLEncoding`. -/
def padChar : Char := '='

/-- The table lookup `enc.encode[i]`, for an index already masked to 6 bits. -/
def encodeAt (i : Nat) : Char :=
  encodeURL.getD i 'A'

/-- The loop of `(*Encoding).Encode` for `base64.URLEncoding`: whole 3-byte
groups give 4 characters, a remainder of 1 or 2 bytes gives 2 or 3 characters
followed by padding. -/
def encode : List (Fin 256) → List Char
  | [] => []
  | [b0] =>
    let val := b0.val <<< 16
    [encodeAt (val >>> 18 &&& 0x3F), encodeAt (val >>> 12 &&& 0x3F), padChar, padChar]
  | [b0, b1] =>
    let val := b0.val <<< 16 ||| b1.val <<< 8
    [encodeAt (val >>> 18 &&& 0x3F), encodeAt (val >>> 12 &&& 0x3F),
     encodeAt (val >>> 6 &&& 0x3F), padChar]
  | b0 :: b1 :: b2 :: rest =>
    let val := b0.val <<< 16 ||| b1.val <<< 8 ||| b2.val
    encodeAt (val >>> 18 &&& 0x3F) :: encodeAt (val >>> 12 &&& 0x3F) ::
      encodeAt (val >>> 6 &&& 0x3F) :: encodeAt (val &&& 0x3F) :: encode rest

/-- The call `base64.URLEncoding.EncodeToString`. -/
def EncodeToString (src : List (Fin 256)) : String :=
  String.mk (encode src)

/-- What a call of `GenerateShortURL` does: return a code, return an error,
or panic on a slice out of range. -/
inductive Generated where
  | code (shortURL : String)
  | failed (err : String)
  | panicked
deriving DecidableEq, Repr

/-- The function `GenerateShortURL`; `read` is what `rand.Read` did with the
4-byte buffer: an error, or the bytes it filled the buffer with.  The encoded
string is ASCII, so the byte slice `[:6]` is the first 6 characters. -/
def GenerateShortURL (read : Except String (List (Fin 256))) : Generated :=
  match read with
  | .error err => .failed err
  | .ok b =>
    let encoded := EncodeToString b
    if 6 ≤ encoded.length then .code (String.mk (encoded.data.take 6))
    else .panicked

/-- The characters a short code may be made of: letters, digits, minus and
underscore. -/
def isCodeChar (c : Char) : Bool :=
  c.isAlphanum || c == '-' || c == '_'

end utils

/-! ## The HTTP layer: `net/http`, `middleware`, `handler`, `api` -/

namespace http

/-- The fields of `*http.Request` the middlewares read.  `Header k` is
`r.Header.Get(k)`: the empty string when the header is absent. -/
structure Request where
  Method : String
  Path : String
  Header : String → String
  RemoteAddr : String

/-- An `http.ResponseWriter`: the header map `w.Header()`, what the first
`WriteHeader` sent (status code and the headers as they were then), and the
data written to the body. -/
structure ResponseWriter where
  header : String → Option String
  wrote : Option (Nat × (String → Option String))
  body : List String

/-- The call `w.Header().Set(key, value)`. -/
def ResponseWriter.Set (w : ResponseWriter) (key value : String) : ResponseWriter :=
  { w with header := Function.update w.header key (some value) }

/-- The call `w.WriteHeader(code)`: only the first call sends the status line
and the headers. -/
def ResponseWriter.WriteHeader (w : ResponseWriter) (code : Nat) : ResponseWriter :=
  match w.wrote with
  | some _ => w
  | none => { w with wrote := some (code, w.header) }

/-- The call `w.Write(data)`: sends an implicit `200` when nothing was sent. -/
def ResponseWriter.Write (w : ResponseWriter) (data : String) : ResponseWriter :=
  let w := w.WriteHeader 200
  { w with body := w.body ++ [data] }

/-- The function `http.Error`. -/
def Error (w : ResponseWriter) (error : String) (code : Nat) : ResponseWriter :=
  let w := w.Set "Content-Type" "text/plain; charset=utf-8"
  let w := w.Set "X-Content-Type-Options" "nosniff"
  let w := w.WriteHeader code
  w.Write (error ++ "\n")

/-- A response writer nothing was written to. -/
def newResponseWriter : ResponseWriter :=
  { header := fun _ => none, wrote := none, body := [] }

/-- What a handler acts on besides the request: the response writer, the
messages given to the logger, and the store behind the handlers. -/
structure Exchange (σ : Type) where
  w : ResponseWriter
  log : List String
  store : σ

/-- The type `http.HandlerFunc`. -/
abbrev HandlerFunc (σ : Type) := Request → Exchange σ → Exchange σ

/-- The status code sent, if any. -/
def Exchange.status {σ : Type} (x : Exchange σ) : Option Nat :=
  x.w.wrote.map Prod.fst

/-- The value of a header in what was sent, if anything was sent. -/
def Exchange.sentHeader {σ : Type} (x : Exchange σ) (key : String) : Option String :=
  match x.w.wrote with
  | some (_, h) => h key
  | none => none

end http

namespace middleware

open http

/-- The type `Middleware`: the authentication token (the logger is the `log`
of the exchange). -/
structure Middleware where
  authToken : String

/-- The method `Logging` (the logged attributes and the duration are left
out of the messages). -/
def Logging {σ : Type} (next : HandlerFunc σ) : HandlerFunc σ := fun r x =>
  let x := { x with log := x.log ++ ["Received request"] }
  let x := next r x
  { x with log := x.log ++ ["Processed request"] }

/-- The method `TokenAuth`. -/
def TokenAuth {σ : Type} (m : Middleware) (next : HandlerFunc σ) : HandlerFunc σ :=
  fun r x =>
    let token := r.Header "X-Auth-Token"
    if token ≠ m.authToken then
      let x := { x with log := x.log ++ ["Unauthorized access attempt"] }
      { x with w := http.Error x.w "Forbidden: Invalid or missing token" 403 }
    else next r x

/-- The method `CORS`. -/
def CORS {σ : Type} (next : HandlerFunc σ) : HandlerFunc σ := fun r x =>
  let w := x.w.Set "Access-Control-Allow-Origin" "*"
  let w := w.Set "Access-Control-Allow-Methods" "GET, POST, PUT, DELETE, OPTIONS"
  let w := w.Set "Access-Control-Allow-Headers" "Content-Type, Authorization, X-Auth-Token"
  let w := w.Set "Content-Type" "application/json"
  if r.Method = "OPTIONS" then { x with w := w.WriteHeader 200 }
  else next r { x with w := w }

/-- The method `SugarMFunc`: the first middleware wraps the handler, each
later one wraps the chain built so far; `none` is the nil chain of an empty
list. -/
def SugarMFunc {σ : Type} (middlewares : List (HandlerFunc σ → HandlerFunc σ))
    (handler : HandlerFunc σ) : Option (HandlerFunc σ) :=
  match middlewares with
  | [] => none
  | first :: rest => some (rest.foldl (fun chain middleware => middleware chain) (first handler))

end middleware

namespace handler

open http

/-- The handler methods of `*handler.Handler` that `RegisterEndPoints` wires. -/
structure Handler (σ : Type) where
  ShortenHandler : HandlerFunc σ
  RedirectHandler : HandlerFunc σ
  StatsHandler : HandlerFunc σ
  UpdateHandler : HandlerFunc σ
  FlushHandler : HandlerFunc σ
  BackupHandler : HandlerFunc σ
  ImportHandler : HandlerFunc σ
  HealthHandler : HandlerFunc σ

/-- The method `FlushHandler` over the in-memory engine; `encode` is
`json.NewEncoder(w).Encode` at `map[string]string`. -/
def FlushHandler (encode : (String → Option String) → String) :
    HandlerFunc memory.URLStore := fun _ x =>
  let (backup, err, store) := memory.Flush x.store
  match err with
  | some _ =>
    { w := http.Error x.w "Failed to flush URLs" 500,
      log := x.log ++ ["Failed to flush URLs"], store := store }
  | none =>
    let w := x.w.Set "Content-Type" "application/json"
    let w := w.WriteHeader 200
    { w := w.Write (encode backup),
      log := x.log ++ ["Flushed all URLs and returned backup"], store := store }

end handler

namespace api

open http middleware

/-- The map `endpoints` of `RegisterEndPoints`: each path with the chain
registered for it. -/
def RegisterEndPoints {σ : Type} (md : Middleware) (hd : handler.Handler σ) :
    List (String × Option (HandlerFunc σ)) :=
  let midAuth : List (HandlerFunc σ → HandlerFunc σ) := [CORS, Logging, TokenAuth md]
  let midcommon : List (HandlerFunc σ → HandlerFunc σ) := [CORS, Logging]
  [("/shorten", SugarMFunc midAuth hd.ShortenHandler),
   ("/update", SugarMFunc midAuth hd.UpdateHandler),
   ("/flush", SugarMFunc midAuth hd.FlushHandler),
   ("/backup", SugarMFunc midAuth hd.BackupHandler),
   ("/import", SugarMFunc midAuth hd.ImportHandler),
   ("/stats", SugarMFunc midAuth hd.StatsHandler),
   ("/", SugarMFunc midcommon hd.RedirectHandler),
   ("/health", SugarMFunc midcommon hd.HealthHandler)]

end api

/-! ## The geolocation lookup of `pkg/utils` -/

namespace utils

/-- A value `json.Unmarshal` stores in an `interface{}`. -/
inductive JSONValue where
  | null
  | bool (b : Bool)
  | number (text : String)
  | string (s : String)
  | array (items : List JSONValue)
  | object (fields : List (String × JSONValue))

/-- What `http.Get` and `io.ReadAll` gave: an error of the one, an error of
the other, or the body of the response. -/
inductive Fetched where
  | getFailed (err : String)
  | readFailed (err : String)
  | body (data : List (Fin 256))

/-- What a call of `GetGeoLocation` does: return a label, or panic on a failed
type assertion. -/
inductive GeoResult where
  | label (value : String)
  | panicked
deriving DecidableEq, Repr

/-- The function `GetGeoLocation`; `get url` is the outcome of `http.Get(url)`
and of reading the body, `unmarshal` is `json.Unmarshal` into a
`map[string]interface{}`. -/
def GetGeoLocation (get : String → Fetched)
    (unmarshal : List (Fin 256) → Except String (String → Option JSONValue))
    (ip : String) : GeoResult :=
  let value := "Unknown"
  match get ("http://ip-api.com/json/" ++ ip) with
  | .getFailed _ => .label value
  | .readFailed _ => .label value
  | .body body =>
    match unmarshal body with
    | .error _ => .label value
    | .ok result =>
      match result "status" with
      | some (.string status) =>
        if status = "success" then
          match result "city" with
          | some (.string city) =>
            match result "country" with
            | some (.string country) => .label (city ++ ", " ++ country)
            | _ => .panicked
          | _ => .panicked
        else .label value
      | _ => .label value

end utils

/-! ## The SQLite engine of `infra/database/sqlite`

The database is its two tables, each a partial function from the primary key
`short_url` to the rest of the row.  Every statement runs against a healthy
database: an `INSERT` fails only on its `PRIMARY KEY`, an `UPDATE` changes the
rows its `WHERE` selects (none, when there is none) and does not fail.  The
foreign key is declared but not enforced (SQLite enforces none unless the
connection asks for it).  The JSON text that `GetStats` hands to `UpdateStats`
is a value of a type `Doc`; `encoding/json` is the pair `marshal`, `unmarshal`.
-/

namespace sqlite

/-- The statistics struct of the package: the fields of `memory.URLStats`. -/
abbrev URLStats := memory.URLStats

/-- A row of `url_stats`, without its key. -/
structure StatsRow where
  count : Int
  last_ips : String
  referrers : String
  last_geo_location : String
deriving DecidableEq, Repr

/-- The tables `urls` and `url_stats`. -/
structure DB where
  urls : String → Option String
  url_stats : String → Option StatsRow

/-- The database after `initializeDB` on a new file: two empty tables. -/
def NewURLStore : DB :=
  { urls := fun _ => none, url_stats := fun _ => none }

/-- The helper `appendWithLimit`. -/
def appendWithLimit (list : List String) (item : String) (limit : Nat) : List String :=
  if item = "" then list
  else (if list.length ≥ limit then list.drop 1 else list) ++ [item]

/-- The helper `joinStrings`: `strings.Join(list, ",")`. -/
def joinStrings (list : List String) : String :=
  String.mk ([','].intercalate (list.map String.data))

/-- The helper `splitString`: `strings.Split(data, ",")`. -/
def splitString (data : String) : List String :=
  (data.data.splitOn ',').map String.mk

/-- The method `Save`: two `INSERT`s, the second only when the first succeeded. -/
def Save (db : DB) (shortURL originalURL : String) : Option String × DB :=
  match db.urls shortURL with
  | some _ => (some "UNIQUE constraint failed: urls.short_url", db)
  | none =>
    let db := { db with urls := Function.update db.urls shortURL (some originalURL) }
    match db.url_stats shortURL with
    | some _ => (some "UNIQUE constraint failed: url_stats.short_url", db)
    | none =>
      let row : StatsRow :=
        { count := 0, last_ips := "", referrers := "", last_geo_location := "" }
      (none, { db with url_stats := Function.update db.url_stats shortURL (some row) })

/-- The method `Get`: `Scan` fails when the query selects no row. -/
def Get (db : DB) (shortURL : String) : String × Bool :=
  match db.urls shortURL with
  | none => ("", false)
  | some originalURL => (originalURL, true)

/-- The struct `GetStats` fills from the row of `shortURL` before it encodes
it; `none` when `Scan` finds no row. -/
def scanStats (db : DB) (shortURL : String) : Option URLStats :=
  match db.url_stats shortURL with
  | none => none
  | some row =>
    some { Count := row.count, LastIPs := splitString row.last_ips,
           Referrers := splitString row.referrers,
           LastGeoLocation := row.last_geo_location }

/-- The method `GetStats`: `none` is the result `("", false)`, `some rr` the
result `(rr, true)`. -/
def GetStats {Doc : Type} (marshal : URLStats → Except String Doc)
    (db : DB) (shortURL : String) : Option Doc :=
  match scanStats db shortURL with
  | none => none
  | some stats =>
    match marshal stats with
    | .error _ => none
    | .ok rr => some rr

/-- The method `UpdateURL`: the error of the `UPDATE`, which is nil. -/
def UpdateURL (db : DB) (shortURL newOriginalURL : String) : Option String × DB :=
  match db.urls shortURL with
  | none => (none, db)
  | some _ =>
    (none, { db with urls := Function.update db.urls shortURL (some newOriginalURL) })

/-- The method `UpdateStats`. -/
def UpdateStats {Doc : Type} (marshal : URLStats → Except String Doc)
    (unmarshal : Doc → Except String URLStats)
    (db : DB) (shortURL ip referrer geoLocation : String) : Option String × DB :=
  match GetStats marshal db shortURL with
  | none => (some "short URL not found", db)
  | some statsStr =>
    match unmarshal statsStr with
    | .error err => (some err, db)
    | .ok stats =>
      let stats := { stats with Count := memory.wrapInt (stats.Count + 1) }
      let stats := { stats with LastIPs := appendWithLimit stats.LastIPs ip 5 }
      let stats := { stats with Referrers := appendWithLimit stats.Referrers referrer 5 }
      let stats := { stats with LastGeoLocation := geoLocation }
      match db.url_stats shortURL with
      | none => (none, db)
      | some _ =>
        let row : StatsRow :=
          { count := stats.Count, last_ips := joinStrings stats.LastIPs,
            referrers := joinStrings stats.Referrers,
            last_geo_location := stats.LastGeoLocation }
        (none, { db with url_stats := Function.update db.url_stats shortURL (some row) })

/-- The row the `UPDATE` of `UpdateStats` writes over the row `GetStats` read,
when `encoding/json` gives back the struct it encoded. -/
def nextRow (row : StatsRow) (ip referrer geoLocation : String) : StatsRow :=
  { count := memory.wrapInt (row.count + 1),
    last_ips := joinStrings (appendWithLimit (splitString row.last_ips) ip 5),
    referrers := joinStrings (appendWithLimit (splitString row.referrers) referrer 5),
    last_geo_location := geoLocation }

/-- The database after the calls `UpdateStats(shortURL, c.ip, c.referrer,
c.geoLocation)` for `c` in `calls`, in order, starting from `db`. -/
def updateStatsAll {Doc : Type} (marshal : URLStats → Except String Doc)
    (unmarshal : Doc → Except String URLStats)
    (db : DB) (shortURL : String) (calls : List memory.StatsCall) : DB :=
  calls.foldl
    (fun d c => (UpdateStats marshal unmarshal d shortURL c.ip c.referrer c.geoLocation).2) db

end sqlite

/-! ## Properties of the in-memory store -/

namespace memory

/-- C1. Round trip: in every store state, alias `A` being mapped already or
not, `Save A U` returns the nil error and a following `Get A` returns
`(U, true)`. -/
theorem save_get_roundtrip (s : URLStore) (A U : String) :
    (Save s A U).1 = none ∧ Get (Save s A U).2 A = (U, true) := by
  simp [Save, Get]

end memory

/-! ### Helper lemmas on the bounded histories and on the counter -/

namespace memory

theorem wrapInt_zero : wrapInt 0 = 0 := by
  simp [wrapInt, intBits]

theorem wrapInt_succ (x : Int) : wrapInt (wrapInt x + 1) = wrapInt (x + 1) := by
  simp only [wrapInt, intBits]
  norm_num
  omega

theorem wrapInt_of_small (n : Nat) (h : n < 2 ^ 63) : wrapInt (n : Int) = n := by
  simp only [wrapInt, intBits]
  norm_num at h ⊢
  omega

theorem appendLast5_lastN (l : List String) (x : String) :
    appendLast5 (lastN 5 l) x = lastN 5 (l ++ [x]) := by
  unfold appendLast5 lastN
  by_cases h : 5 ≤ l.length
  · have h1 : (List.drop (l.length - 5) l).length ≥ 5 := by
      simp only [List.length_drop]; omega
    rw [if_pos h1, List.drop_drop, List.length_append, List.length_singleton,
      List.drop_append_of_le_length (by omega)]
    congr 2
    omega
  · have h1 : ¬ (List.drop (l.length - 5) l).length ≥ 5 := by
      simp only [List.length_drop]; omega
    have h2 : l.length - 5 = 0 := by omega
    have h3 : (l ++ [x]).length - 5 = 0 := by
      simp only [List.length_append, List.length_singleton]; omega
    rw [if_neg h1, h2, h3, List.drop_zero, List.drop_zero]

theorem updateStatsAll_snoc (s : URLStore) (A : String) (calls : List StatsCall)
    (c : StatsCall) :
    updateStatsAll s A (calls ++ [c]) =
      (UpdateStats (updateStatsAll s A calls) A c.ip c.referrer c.geoLocation).2 := by
  simp [updateStatsAll, List.foldl_append]

/-- The statistics of an alias after `Save` and any sequence of `UpdateStats`
calls on it. -/
theorem stats_after_save (s : URLStore) (A U : String) (calls : List StatsCall) :
    (updateStatsAll (Save s A U).2 A calls).stats A = some
      { Count := wrapInt calls.length,
        LastIPs := lastN 5 (calls.map (·.ip)),
        Referrers := lastN 5 ((calls.map (·.referrer)).filter (· ≠ "")),
        LastGeoLocation := ((calls.map (·.geoLocation)).getLast?).getD "" } := by
  induction calls using List.reverseRecOn with
  | nil => simp [updateStatsAll, Save, newStats, lastN, wrapInt_zero]
  | append_singleton calls c ih =>
    rw [updateStatsAll_snoc]
    simp only [UpdateStats, ih]
    simp only [Function.update_same, List.map_append, List.map_cons, List.map_nil,
      List.length_append, List.length_singleton, List.getLast?_append, Nat.cast_add,
      Nat.cast_one, wrapInt_succ, appendLast5_lastN, List.filter_append]
    by_cases hr : c.referrer = ""
    · simp [hr]
    · simp [hr, appendLast5_lastN]

end memory

/-! ### Helper lemmas on `Import` and on the pairing of the two maps -/

namespace memory

theorem foldl_importEntry_of_not_mem (m : List (String × String)) (s : URLStore)
    (a : String) (h : a ∉ m.map Prod.fst) :
    (m.foldl importEntry s).urls a = s.urls a ∧
      (m.foldl importEntry s).stats a = s.stats a := by
  induction m generalizing s with
  | nil => simp
  | cons e rest ih =>
    simp only [List.map_cons, List.mem_cons, not_or] at h
    rw [List.foldl_cons]
    obtain ⟨h1, h2⟩ := ih (importEntry s e) h.2
    rw [h1, h2]
    simp [importEntry, Function.update_noteq h.1]

theorem foldl_importEntry_of_mem (m : List (String × String)) (s : URLStore)
    (a u : String) (hkeys : (m.map Prod.fst).Nodup) (h : (a, u) ∈ m) :
    (m.foldl importEntry s).urls a = some u ∧
      (m.foldl importEntry s).stats a = some newStats := by
  induction m generalizing s with
  | nil => simp at h
  | cons e rest ih =>
    simp only [List.map_cons, List.nodup_cons] at hkeys
    rw [List.foldl_cons]
    rcases List.mem_cons.mp h with he | hrest
    · subst he
      obtain ⟨h1, h2⟩ := foldl_importEntry_of_not_mem rest (importEntry s (a, u)) a hkeys.1
      rw [h1, h2]
      simp [importEntry]
    · exact ih (importEntry s e) hkeys.2 hrest

theorem paired_importEntry (s : URLStore) (e : String × String) (h : Paired s) :
    Paired (importEntry s e) := by
  intro a
  by_cases ha : a = e.1
  · simp [importEntry, ha]
  · simp [importEntry, Function.update_noteq ha, h a]

theorem paired_foldl_importEntry (m : List (String × String)) (s : URLStore)
    (h : Paired s) : Paired (m.foldl importEntry s) := by
  induction m generalizing s with
  | nil => simpa using h
  | cons e rest ih => exact ih _ (paired_importEntry s e h)

theorem paired_step (unmarshal : List (Fin 256) → Except String (List (String × String)))
    (s : URLStore) (op : Op) (h : Paired s) : Paired (step unmarshal s op) := by
  cases op with
  | save b u =>
    intro a
    by_cases ha : a = b
    · simp [step, Save, ha]
    · simp [step, Save, Function.update_noteq ha, h a]
  | get b => exact h
  | getStats b => exact h
  | updateURL b u =>
    intro a
    simp only [step, UpdateURL]
    cases hb : s.urls b with
    | none => exact h a
    | some old =>
      by_cases ha : a = b
      · subst ha
        simp [h a, hb]
      · simp [Function.update_noteq ha, h a]
  | updateStats b ip referrer geo =>
    intro a
    simp only [step, UpdateStats]
    cases hb : s.stats b with
    | none => exact h a
    | some st =>
      by_cases ha : a = b
      · subst ha
        have := h a
        rw [hb] at this
        simp [← this]
      · simp [Function.update_noteq ha, h a]
  | flush => intro a; simp [step, Flush]
  | backup => exact h
  | importDoc data =>
    simp only [step, Import]
    cases unmarshal data with
    | error err => exact h
    | ok m => exact paired_foldl_importEntry m s h

theorem paired_run (unmarshal : List (Fin 256) → Except String (List (String × String)))
    (ops : List Op) : Paired (run unmarshal ops) := by
  induction ops using List.reverseRecOn with
  | nil => intro a; simp [run, NewURLStore]
  | append_singleton ops op ih =>
    have : run unmarshal (ops ++ [op]) = step unmarshal (run unmarshal ops) op := by
      simp [run, List.foldl_append]
    rw [this]
    exact paired_step unmarshal _ op ih

end memory

/-! ### The store contract -/

namespace memory

/-- C2. Bounded IP history: after `Save A U` and `n` calls of `UpdateStats`
on `A`, whatever their arguments, the `LastIPs` of `A` are the last
`min n 5` IP arguments in call order; when the calls end with five calls
`c1 .. c5` the list is exactly their five IPs, oldest first. -/
theorem lastIPs_bounded_history (s : URLStore) (A U : String) :
    (∀ calls : List StatsCall, ∃ st,
      (updateStatsAll (Save s A U).2 A calls).stats A = some st ∧
      st.LastIPs = (calls.map (·.ip)).drop (calls.length - min calls.length 5) ∧
      st.LastIPs.length = min calls.length 5) ∧
    (∀ (pre : List StatsCall) (c1 c2 c3 c4 c5 : StatsCall), ∃ st,
      (updateStatsAll (Save s A U).2 A (pre ++ [c1, c2, c3, c4, c5])).stats A = some st ∧
      st.LastIPs = [c1.ip, c2.ip, c3.ip, c4.ip, c5.ip]) := by
  constructor
  · intro calls
    refine ⟨_, stats_after_save s A U calls, ?_, ?_⟩
    · simp only [lastN, List.length_map]
      congr 1
      omega
    · simp only [lastN, List.length_drop, List.length_map]
      omega
  · intro pre c1 c2 c3 c4 c5
    refine ⟨_, stats_after_save s A U _, ?_⟩
    simp [lastN]

/-- C3. Referrer history: after `Save A U` and any calls of `UpdateStats` on
`A`, the `Referrers` of `A` are the last `min k 5` of the `k` non-empty
referrer arguments in call order; and a call of `UpdateStats` with the empty
referrer, from any store, leaves the `Referrers` of every alias as they are. -/
theorem referrers_bounded_history (s : URLStore) (A U : String) :
    (∀ calls : List StatsCall, ∃ st,
      (updateStatsAll (Save s A U).2 A calls).stats A = some st ∧
      st.Referrers =
        ((calls.map (·.referrer)).filter (· ≠ "")).drop
          (((calls.map (·.referrer)).filter (· ≠ "")).length -
            min ((calls.map (·.referrer)).filter (· ≠ "")).length 5)) ∧
    (∀ (t : URLStore) (B ip geo : String),
      ((UpdateStats t A ip "" geo).2.stats B).map (·.Referrers) =
        (t.stats B).map (·.Referrers)) := by
  constructor
  · intro calls
    refine ⟨_, stats_after_save s A U calls, ?_⟩
    simp only [lastN]
    congr 1
    omega
  · intro t B ip geo
    simp only [UpdateStats]
    cases hA : t.stats A with
    | none => rfl
    | some st =>
      by_cases hB : B = A
      · subst hB
        simp [hA]
      · simp [Function.update_noteq hB]

/-- C4. Update requires existence: in every state the store can reach, for an
alias `A` without a mapping, `UpdateURL` and `UpdateStats` both return the
error "short URL not found" and leave the store as it is. -/
theorem update_requires_existence
    (unmarshal : List (Fin 256) → Except String (List (String × String)))
    (ops : List Op) (A new ip referrer geo : String)
    (h : (run unmarshal ops).urls A = none) :
    UpdateURL (run unmarshal ops) A new =
      (some "short URL not found", run unmarshal ops) ∧
    UpdateStats (run unmarshal ops) A ip referrer geo =
      (some "short URL not found", run unmarshal ops) := by
  have hp := paired_run unmarshal ops A
  rw [h] at hp
  have hs : (run unmarshal ops).stats A = none := by
    cases hst : (run unmarshal ops).stats A with
    | none => rfl
    | some st => rw [hst] at hp; simp at hp
  simp [UpdateURL, UpdateStats, h, hs]

/-- C4, at a concrete store: after `Save "ab12cd"`, alias `"zz"` is absent. -/
theorem update_requires_existence_witness :
    (run (fun _ => .error "bad") [Op.save "ab12cd" "https://example.com"]).urls "zz" = none ∧
    UpdateURL (run (fun _ => .error "bad") [Op.save "ab12cd" "https://example.com"])
        "zz" "https://new.example" =
      (some "short URL not found",
        run (fun _ => .error "bad") [Op.save "ab12cd" "https://example.com"]) ∧
    UpdateStats (run (fun _ => .error "bad") [Op.save "ab12cd" "https://example.com"])
        "zz" "1.2.3.4" "http://ref" "City, Country" =
      (some "short URL not found",
        run (fun _ => .error "bad") [Op.save "ab12cd" "https://example.com"]) :=
  have h : (run (fun _ => .error "bad")
      [Op.save "ab12cd" "https://example.com"]).urls "zz" = none := by
    simp [run, step, Save, NewURLStore, Function.update]
  ⟨h, update_requires_existence _ _ "zz" "https://new.example" "1.2.3.4" "http://ref"
    "City, Country" h⟩

/-- C5. Flush: the first `Flush` returns the alias to URL map held before the
call and the nil error; afterwards `Get` and `GetStats` find no alias; a second
`Flush` returns the empty map. -/
theorem flush_returns_snapshot_and_clears (s : URLStore) :
    (Flush s).1 = s.urls ∧ (Flush s).2.1 = none ∧
    (∀ a, Get (Flush s).2.2 a = ("", false)) ∧
    (∀ (marshal : Option URLStats → Except String String) (a : String),
      (GetStats marshal (Flush s).2.2 a).2 = false) ∧
    (∀ a, (Flush (Flush s).2.2).1 a = none) ∧ (Flush (Flush s).2.2).2.1 = none := by
  refine ⟨rfl, rfl, fun a => rfl, ?_, fun a => rfl, rfl⟩
  intro marshal a
  simp only [GetStats, Flush]
  cases marshal none <;> rfl

end memory

namespace memory

/-- C6. Import: when the document decodes to the entries `m` (pairwise distinct
keys), `Import` returns the nil error; every alias of `m` then maps to its URL
of `m` and has the initial statistics (count 0, no IPs, no referrers, empty
geolocation), whatever it had before; every other alias keeps its mapping and
its statistics. -/
theorem store_import_overwrites_and_resets
    (unmarshal : List (Fin 256) → Except String (List (String × String)))
    (s : URLStore) (data : List (Fin 256)) (m : List (String × String))
    (hdec : unmarshal data = .ok m) (hkeys : (m.map Prod.fst).Nodup) :
    (Import unmarshal s data).1 = none ∧
    (∀ a u, (a, u) ∈ m →
      Get (Import unmarshal s data).2 a = (u, true) ∧
      (Import unmarshal s data).2.stats a =
        some { Count := 0, LastIPs := [], Referrers := [], LastGeoLocation := "" }) ∧
    (∀ a, a ∉ m.map Prod.fst →
      (Import unmarshal s data).2.urls a = s.urls a ∧
      (Import unmarshal s data).2.stats a = s.stats a) := by
  have hI : Import unmarshal s data = (none, m.foldl importEntry s) := by
    simp only [Import, hdec]
  rw [hI]
  refine ⟨rfl, ?_, ?_⟩
  · intro a u hau
    obtain ⟨h1, h2⟩ := foldl_importEntry_of_mem m s a u hkeys hau
    exact ⟨by simp [Get, h1], h2⟩
  · intro a ha
    exact foldl_importEntry_of_not_mem m s a ha

/-- C6, at a concrete store: `"ab12cd"` has one recorded visit and `"keep"` is
mapped; the document re-imports `"ab12cd"` and adds `"new1"`. -/
theorem store_import_overwrites_and_resets_witness :
    (fun _ => Except.ok [("ab12cd", "https://b.example"), ("new1", "https://c.example")] :
        List (Fin 256) → Except String (List (String × String))) [] =
      .ok [("ab12cd", "https://b.example"), ("new1", "https://c.example")] ∧
    (([("ab12cd", "https://b.example"), ("new1", "https://c.example")] :
        List (String × String)).map Prod.fst).Nodup ∧
    (Import (fun _ => .ok [("ab12cd", "https://b.example"), ("new1", "https://c.example")])
      (UpdateStats (Save (Save NewURLStore "keep" "https://k.example").2
        "ab12cd" "https://a.example").2 "ab12cd" "1.2.3.4" "http://ref" "City").2 []).1
      = none ∧
    (∀ a u, (a, u) ∈ [("ab12cd", "https://b.example"), ("new1", "https://c.example")] →
      Get (Import
          (fun _ => .ok [("ab12cd", "https://b.example"), ("new1", "https://c.example")])
          (UpdateStats (Save (Save NewURLStore "keep" "https://k.example").2
            "ab12cd" "https://a.example").2 "ab12cd" "1.2.3.4" "http://ref" "City").2
          []).2 a = (u, true) ∧
      (Import
          (fun _ => .ok [("ab12cd", "https://b.example"), ("new1", "https://c.example")])
          (UpdateStats (Save (Save NewURLStore "keep" "https://k.example").2
            "ab12cd" "https://a.example").2 "ab12cd" "1.2.3.4" "http://ref" "City").2
          []).2.stats a =
        some { Count := 0, LastIPs := [], Referrers := [], LastGeoLocation := "" }) ∧
    (∀ a, a ∉ ([("ab12cd", "https://b.example"), ("new1", "https://c.example")] :
        List (String × String)).map Prod.fst →
      (Import
          (fun _ => .ok [("ab12cd", "https://b.example"), ("new1", "https://c.example")])
          (UpdateStats (Save (Save NewURLStore "keep" "https://k.example").2
            "ab12cd" "https://a.example").2 "ab12cd" "1.2.3.4" "http://ref" "City").2
          []).2.urls a =
        (UpdateStats (Save (Save NewURLStore "keep" "https://k.example").2
          "ab12cd" "https://a.example").2 "ab12cd" "1.2.3.4" "http://ref" "City").2.urls a ∧
      (Import
          (fun _ => .ok [("ab12cd", "https://b.example"), ("new1", "https://c.example")])
          (UpdateStats (Save (Save NewURLStore "keep" "https://k.example").2
            "ab12cd" "https://a.example").2 "ab12cd" "1.2.3.4" "http://ref" "City").2
          []).2.stats a =
        (UpdateStats (Save (Save NewURLStore "keep" "https://k.example").2
          "ab12cd" "https://a.example").2 "ab12cd" "1.2.3.4" "http://ref" "City").2.stats a) :=
  ⟨rfl, by decide,
    store_import_overwrites_and_resets
      (fun _ => .ok [("ab12cd", "https://b.example"), ("new1", "https://c.example")])
      (UpdateStats (Save (Save NewURLStore "keep" "https://k.example").2
        "ab12cd" "https://a.example").2 "ab12cd" "1.2.3.4" "http://ref" "City").2
      [] [("ab12cd", "https://b.example"), ("new1", "https://c.example")] rfl (by decide)⟩

/-- C7. Pairing invariant: in every state reached from `NewURLStore` by calls
of the store's methods, successful or failing, an alias has a statistics entry
exactly when it has a mapping; and when `json.Marshal` does not fail on the
entry, `GetStats` and `Get` return the same found flag. -/
theorem stats_iff_mapping
    (unmarshal : List (Fin 256) → Except String (List (String × String)))
    (ops : List Op) (a : String) :
    ((run unmarshal ops).stats a).isSome = ((run unmarshal ops).urls a).isSome ∧
    ∀ marshal : Option URLStats → Except String String,
      (∀ err, marshal ((run unmarshal ops).stats a) ≠ .error err) →
      (GetStats marshal (run unmarshal ops) a).2 = (Get (run unmarshal ops) a).2 := by
  have hp := paired_run unmarshal ops a
  refine ⟨hp, ?_⟩
  intro marshal hm
  have hget : (Get (run unmarshal ops) a).2 = ((run unmarshal ops).urls a).isSome := by
    unfold Get
    cases (run unmarshal ops).urls a <;> rfl
  rw [hget, ← hp]
  unfold GetStats
  cases hmar : marshal ((run unmarshal ops).stats a) with
  | error err => exact absurd hmar (hm err)
  | ok rr => simp only [hmar]

/-- C7, at a concrete run: a save, a visit, a flush and a second save. -/
theorem stats_iff_mapping_witness :
    (∀ err : String, (fun _ => Except.ok "stats" : Option URLStats → Except String String)
      ((run (fun _ => .error "bad")
        [Op.save "ab12cd" "https://a.example", Op.updateStats "ab12cd" "1.2.3.4" "" "City",
         Op.flush, Op.save "x" "https://x.example"]).stats "x") ≠ .error err) ∧
    (GetStats (fun _ => .ok "stats") (run (fun _ => .error "bad")
        [Op.save "ab12cd" "https://a.example", Op.updateStats "ab12cd" "1.2.3.4" "" "City",
         Op.flush, Op.save "x" "https://x.example"]) "x").2 =
      (Get (run (fun _ => .error "bad")
        [Op.save "ab12cd" "https://a.example", Op.updateStats "ab12cd" "1.2.3.4" "" "City",
         Op.flush, Op.save "x" "https://x.example"]) "x").2 :=
  ⟨(fun err h => by cases h),
    (stats_iff_mapping (fun _ => .error "bad")
      [Op.save "ab12cd" "https://a.example", Op.updateStats "ab12cd" "1.2.3.4" "" "City",
       Op.flush, Op.save "x" "https://x.example"] "x").2
      (fun _ => .ok "stats") (fun err h => (by cases h))⟩

/-- C8. Frame of `UpdateURL`: when alias `A` is mapped, `UpdateURL A new`
returns the nil error, a following `Get A` returns `(new, true)`, and the
statistics map, the entry of `A` included, is what it was before the call. -/
theorem updateURL_keeps_stats (s : URLStore) (A new old : String)
    (h : s.urls A = some old) :
    (UpdateURL s A new).1 = none ∧
    Get (UpdateURL s A new).2 A = (new, true) ∧
    (UpdateURL s A new).2.stats = s.stats := by
  simp [UpdateURL, h, Get]

/-- C8, at a concrete store: `"ab12cd"` was saved and visited once. -/
theorem updateURL_keeps_stats_witness :
    (UpdateStats (Save NewURLStore "ab12cd" "https://a.example").2
      "ab12cd" "1.2.3.4" "http://ref" "City").2.urls "ab12cd" = some "https://a.example" ∧
    (UpdateURL (UpdateStats (Save NewURLStore "ab12cd" "https://a.example").2
      "ab12cd" "1.2.3.4" "http://ref" "City").2 "ab12cd" "https://b.example").1 = none ∧
    Get (UpdateURL (UpdateStats (Save NewURLStore "ab12cd" "https://a.example").2
      "ab12cd" "1.2.3.4" "http://ref" "City").2 "ab12cd" "https://b.example").2 "ab12cd" =
      ("https://b.example", true) ∧
    (UpdateURL (UpdateStats (Save NewURLStore "ab12cd" "https://a.example").2
      "ab12cd" "1.2.3.4" "http://ref" "City").2 "ab12cd" "https://b.example").2.stats =
      (UpdateStats (Save NewURLStore "ab12cd" "https://a.example").2
        "ab12cd" "1.2.3.4" "http://ref" "City").2.stats :=
  have h : (UpdateStats (Save NewURLStore "ab12cd" "https://a.example").2
      "ab12cd" "1.2.3.4" "http://ref" "City").2.urls "ab12cd" = some "https://a.example" := by
    simp [UpdateStats, Save]
  ⟨h, updateURL_keeps_stats _ "ab12cd" "https://b.example" "https://a.example" h⟩

end memory

namespace memory

/-- C9, as stated, fails: after `Save` and `2 ^ 63` calls of `UpdateStats` the
count has wrapped around to `-2 ^ 63`; it is not the number of calls. -/
theorem count_wraps_after_two_pow_63_calls :
    ((updateStatsAll (Save NewURLStore "ab12cd" "https://example.com").2 "ab12cd"
        (List.replicate (2 ^ 63) ⟨"1.2.3.4", "http://ref", "City, Country"⟩)).stats
      "ab12cd").map (·.Count) = some (-9223372036854775808) ∧
    ¬ ∃ st, (updateStatsAll (Save NewURLStore "ab12cd" "https://example.com").2 "ab12cd"
        (List.replicate (2 ^ 63) ⟨"1.2.3.4", "http://ref", "City, Country"⟩)).stats
      "ab12cd" = some st ∧ st.Count = 2 ^ 63 := by
  have hw : wrapInt ((2 ^ 63 : Nat) : Int) = -9223372036854775808 := by
    simp only [wrapInt, intBits]
    norm_num
  rw [stats_after_save]
  simp only [List.length_replicate, hw, Option.map_some', Option.some.injEq]
  refine ⟨trivial, ?_⟩
  rintro ⟨st, hst, hc⟩
  rw [← hst] at hc
  norm_num at hc

/-- C9, amended. A successful `UpdateStats A ip referrer geo` sets
`LastGeoLocation` to `geo` and, when the count is below the largest `int`,
increases the count by exactly 1; after `Save A U` and `n < 2 ^ 63` calls of
`UpdateStats` on `A` the count is `n` and `LastGeoLocation` is the geolocation
of the last call (the empty string when there was no call); three calls with
IP "1.2.3.4" and geolocation "City, Country" give count 3, three times
"1.2.3.4" and "City, Country". -/
theorem count_and_geolocation (s t : URLStore) (A U ip referrer geo : String)
    (st : URLStats) (calls : List StatsCall)
    (ht : t.stats A = some st) (hn : calls.length < 2 ^ 63) :
    (∃ st', UpdateStats t A ip referrer geo = (none, { t with
        stats := Function.update t.stats A (some st') }) ∧
      st'.LastGeoLocation = geo ∧
      (-2 ^ 63 ≤ st.Count → st.Count < 2 ^ 63 - 1 → st'.Count = st.Count + 1)) ∧
    (∃ st', (updateStatsAll (Save s A U).2 A calls).stats A = some st' ∧
      st'.Count = calls.length ∧
      st'.LastGeoLocation = ((calls.map (·.geoLocation)).getLast?).getD "") ∧
    (updateStatsAll (Save s A U).2 A
        [⟨"1.2.3.4", "http://ref", "City, Country"⟩,
         ⟨"1.2.3.4", "http://ref", "City, Country"⟩,
         ⟨"1.2.3.4", "http://ref", "City, Country"⟩]).stats A = some
      { Count := 3, LastIPs := ["1.2.3.4", "1.2.3.4", "1.2.3.4"],
        Referrers := ["http://ref", "http://ref", "http://ref"],
        LastGeoLocation := "City, Country" } := by
  refine ⟨?_, ?_, ?_⟩
  · have hupd : ∃ st', UpdateStats t A ip referrer geo = (none, { t with
          stats := Function.update t.stats A (some st') }) ∧
        st'.LastGeoLocation = geo ∧ st'.Count = wrapInt (st.Count + 1) := by
      by_cases hr : referrer = ""
      · exact ⟨_, by simp only [UpdateStats, ht]; rfl, by simp [hr], by simp [hr]⟩
      · exact ⟨_, by simp only [UpdateStats, ht]; rfl, by simp [hr], by simp [hr]⟩
    obtain ⟨st', hst', hgeo, hcount⟩ := hupd
    refine ⟨st', hst', hgeo, ?_⟩
    intro hlo hhi
    rw [hcount]
    simp only [wrapInt, intBits]
    norm_num at hlo hhi ⊢
    omega
  · exact ⟨_, stats_after_save s A U calls, wrapInt_of_small _ hn, rfl⟩
  · rw [stats_after_save]
    have h3 : wrapInt 3 = 3 := by
      simp only [wrapInt, intBits]
      norm_num
    simp [lastN, h3]

/-- C9 amended, at a concrete store: `"ab12cd"` just saved, then three visits. -/
theorem count_and_geolocation_witness :
    (Save NewURLStore "ab12cd" "https://example.com").2.stats "ab12cd" = some newStats ∧
    ([⟨"1.2.3.4", "http://ref", "City, Country"⟩, ⟨"1.2.3.4", "http://ref", "City, Country"⟩,
      ⟨"1.2.3.4", "http://ref", "City, Country"⟩] : List StatsCall).length < 2 ^ 63 ∧
    ∃ st', (updateStatsAll (Save NewURLStore "ab12cd" "https://example.com").2 "ab12cd"
        [⟨"1.2.3.4", "http://ref", "City, Country"⟩,
         ⟨"1.2.3.4", "http://ref", "City, Country"⟩,
         ⟨"1.2.3.4", "http://ref", "City, Country"⟩]).stats "ab12cd" = some st' ∧
      st'.Count = ([⟨"1.2.3.4", "http://ref", "City, Country"⟩,
        ⟨"1.2.3.4", "http://ref", "City, Country"⟩,
        ⟨"1.2.3.4", "http://ref", "City, Country"⟩] : List StatsCall).length ∧
      st'.LastGeoLocation = (([⟨"1.2.3.4", "http://ref", "City, Country"⟩,
        ⟨"1.2.3.4", "http://ref", "City, Country"⟩,
        ⟨"1.2.3.4", "http://ref", "City, Country"⟩] : List StatsCall).map
          (·.geoLocation)).getLast?.getD "" :=
  have ht : (Save NewURLStore "ab12cd" "https://example.com").2.stats "ab12cd" =
      some newStats := by simp [Save]
  have hn : ([⟨"1.2.3.4", "http://ref", "City, Country"⟩,
      ⟨"1.2.3.4", "http://ref", "City, Country"⟩,
      ⟨"1.2.3.4", "http://ref", "City, Country"⟩] : List StatsCall).length < 2 ^ 63 := by
    simp
  ⟨ht, hn,
    (count_and_geolocation NewURLStore (Save NewURLStore "ab12cd" "https://example.com").2
      "ab12cd" "https://example.com" "1.2.3.4" "http://ref" "City, Country" newStats
      _ ht hn).2.1⟩

end memory

/-! ## Properties of the short-code generator -/

namespace utils

theorem encodeAt_isCodeChar (i : Nat) (h : i < 64) :
    isCodeChar (encodeAt i) = true ∧ encodeAt i ≠ padChar := by
  revert i
  decide

theorem encodeAt_mask (v : Nat) :
    isCodeChar (encodeAt (v &&& 0x3F)) = true ∧ encodeAt (v &&& 0x3F) ≠ padChar :=
  encodeAt_isCodeChar _ (Nat.lt_succ_of_le Nat.and_le_right)

theorem encode_four (b0 b1 b2 b3 : Fin 256) :
    encode [b0, b1, b2, b3] =
      [encodeAt ((b0.val <<< 16 ||| b1.val <<< 8 ||| b2.val) >>> 18 &&& 0x3F),
       encodeAt ((b0.val <<< 16 ||| b1.val <<< 8 ||| b2.val) >>> 12 &&& 0x3F),
       encodeAt ((b0.val <<< 16 ||| b1.val <<< 8 ||| b2.val) >>> 6 &&& 0x3F),
       encodeAt ((b0.val <<< 16 ||| b1.val <<< 8 ||| b2.val) &&& 0x3F),
       encodeAt ((b3.val <<< 16) >>> 18 &&& 0x3F),
       encodeAt ((b3.val <<< 16) >>> 12 &&& 0x3F), padChar, padChar] := by
  simp [encode]

/-- C10. Shape of the short code: for every 4 bytes read from the random
source, `GenerateShortURL` does not panic and returns the first 6 characters
of the 8-character URL-safe base64 encoding of the bytes; the code has length
6 and each of its characters is a letter, a digit, `-` or `_`, never `=`. -/
theorem generateShortURL_shape (b : List (Fin 256)) (h : b.length = 4) :
    (EncodeToString b).length = 8 ∧
    GenerateShortURL (.ok b) = .code (String.mk ((EncodeToString b).data.take 6)) ∧
    (String.mk ((EncodeToString b).data.take 6)).length = 6 ∧
    ∀ c ∈ (String.mk ((EncodeToString b).data.take 6)).data,
      isCodeChar c = true ∧ c ≠ '=' := by
  match b, h with
  | [b0, b1, b2, b3], _ =>
    have hlen : (EncodeToString [b0, b1, b2, b3]).length = 8 := by
      simp [EncodeToString, String.length, encode_four]
    refine ⟨hlen, ?_, ?_, ?_⟩
    · simp [GenerateShortURL, hlen]
    · simp [EncodeToString, String.length, encode_four]
    · intro c hc
      simp only [EncodeToString, encode_four, List.take_succ_cons, List.take_zero,
        List.mem_cons, List.mem_nil_iff, or_false] at hc
      rcases hc with rfl | rfl | rfl | rfl | rfl | rfl <;> exact encodeAt_mask _

/-- C10, at the bytes `de ad be ef`. -/
theorem generateShortURL_shape_witness :
    ([0xde, 0xad, 0xbe, 0xef] : List (Fin 256)).length = 4 ∧
    GenerateShortURL (.ok [0xde, 0xad, 0xbe, 0xef]) = .code "3q2-7w" :=
  ⟨rfl, (generateShortURL_shape [0xde, 0xad, 0xbe, 0xef] rfl).2.1.trans (by decide)⟩

end utils

/-! ## Properties of the HTTP layer -/

namespace middleware

open http

theorem sugarMFunc_auth {σ : Type} (m : Middleware) (h : HandlerFunc σ) :
    SugarMFunc [CORS, Logging, TokenAuth m] h = some (TokenAuth m (Logging (CORS h))) := rfl

theorem sugarMFunc_common {σ : Type} (h : HandlerFunc σ) :
    SugarMFunc [CORS, Logging] h = some (Logging (CORS h)) := rfl

theorem tokenAuth_of_ne {σ : Type} (m : Middleware) (next : HandlerFunc σ) (r : Request)
    (x : Exchange σ) (h : r.Header "X-Auth-Token" ≠ m.authToken) :
    TokenAuth m next r x =
      { w := http.Error x.w "Forbidden: Invalid or missing token" 403,
        log := x.log ++ ["Unauthorized access attempt"], store := x.store } := by
  simp [TokenAuth, h]

theorem status_error {σ : Type} (x : Exchange σ) (msg : String) (code : Nat)
    (log : List String) (hw : x.w.wrote = none) :
    Exchange.status ({ w := http.Error x.w msg code, log := log, store := x.store } :
      Exchange σ) = some code := by
  simp [Exchange.status, http.Error, ResponseWriter.Write, ResponseWriter.WriteHeader,
    ResponseWriter.Set, hw]

/-- C11. Token gating: when the `X-Auth-Token` value of the request (empty when
the header is absent) differs from the configured token, `TokenAuth` answers
`403` by `http.Error` and never calls the handler it wraps, so the chain
registered for `/flush` leaves the store as it is; when the value equals the
token, `TokenAuth` calls the wrapped handler. -/
theorem tokenAuth_gates {σ : Type} (m : Middleware) (hd : handler.Handler σ)
    (next : HandlerFunc σ) (r : Request) (x : Exchange σ)
    (h : r.Header "X-Auth-Token" ≠ m.authToken) (hw : x.w.wrote = none) :
    TokenAuth m next r x =
      { w := http.Error x.w "Forbidden: Invalid or missing token" 403,
        log := x.log ++ ["Unauthorized access attempt"], store := x.store } ∧
    (TokenAuth m next r x).status = some 403 ∧
    (∀ chain, ("/flush", some chain) ∈ api.RegisterEndPoints m hd →
      (chain r x).store = x.store ∧ (chain r x).status = some 403) ∧
    (∀ r' : Request, r'.Header "X-Auth-Token" = m.authToken →
      TokenAuth m next r' x = next r' x) := by
  refine ⟨tokenAuth_of_ne m next r x h, ?_, ?_, ?_⟩
  · rw [tokenAuth_of_ne m next r x h]
    exact status_error x _ 403 _ hw
  · intro chain hmem
    simp only [api.RegisterEndPoints, sugarMFunc_auth, sugarMFunc_common, List.mem_cons,
      Prod.mk.injEq, List.mem_nil_iff, or_false] at hmem
    have hc : chain = TokenAuth m (Logging (CORS hd.FlushHandler)) := by
      rcases hmem with h1 | h1 | h1 | h1 | h1 | h1 | h1 | h1
      all_goals first
        | exact (Option.some.inj h1.2)
        | exact absurd h1.1 (by decide)
    rw [hc, tokenAuth_of_ne m _ r x h]
    exact ⟨rfl, status_error x _ 403 _ hw⟩
  · intro r' h'
    simp [TokenAuth, h']

/-- C11, at a concrete exchange: token `"secret"`, a `/flush` request without
the header, a store holding `"ab12cd"`, and the handler `FlushHandler`. -/
theorem tokenAuth_gates_witness :
    (⟨"POST", "/flush", fun _ => "", "192.0.2.1:4096"⟩ : Request).Header "X-Auth-Token" ≠
      (⟨"secret"⟩ : Middleware).authToken ∧
    (∀ chain, ("/flush", some chain) ∈ api.RegisterEndPoints ⟨"secret"⟩
        (⟨fun _ x => x, fun _ x => x, fun _ x => x, fun _ x => x,
          handler.FlushHandler (fun _ => "backup"), fun _ x => x, fun _ x => x,
          fun _ x => x⟩ : handler.Handler memory.URLStore) →
      (chain ⟨"POST", "/flush", fun _ => "", "192.0.2.1:4096"⟩
        ⟨newResponseWriter, [],
          (memory.Save memory.NewURLStore "ab12cd" "https://example.com").2⟩).store =
        (memory.Save memory.NewURLStore "ab12cd" "https://example.com").2 ∧
      (chain ⟨"POST", "/flush", fun _ => "", "192.0.2.1:4096"⟩
        ⟨newResponseWriter, [],
          (memory.Save memory.NewURLStore "ab12cd" "https://example.com").2⟩).status =
        some 403) :=
  ⟨by decide,
    (tokenAuth_gates ⟨"secret"⟩ _ (fun _ x => x)
      ⟨"POST", "/flush", fun _ => "", "192.0.2.1:4096"⟩
      ⟨newResponseWriter, [],
        (memory.Save memory.NewURLStore "ab12cd" "https://example.com").2⟩
      (by decide) rfl).2.2.1⟩

/-- C17, at its failing input: with token `"secret"`, an `OPTIONS` request to
`/flush` without `X-Auth-Token` is answered `403` by `TokenAuth`, the outermost
middleware of the chain, and no `Access-Control-Allow-Origin` header is sent;
the same request to `/health`, whose chain lists `CORS` first as well, is
answered `200` with `Access-Control-Allow-Origin: *`. -/
theorem preflight_flush_without_token :
    (∃ chain, ("/flush", some chain) ∈ api.RegisterEndPoints ⟨"secret"⟩
        (⟨fun _ x => x, fun _ x => x, fun _ x => x, fun _ x => x, fun _ x => x,
          fun _ x => x, fun _ x => x, fun _ x => x⟩ : handler.Handler Unit) ∧
      (chain ⟨"OPTIONS", "/flush", fun _ => "", "192.0.2.1:4096"⟩
        ⟨newResponseWriter, [], ()⟩).status = some 403 ∧
      (chain ⟨"OPTIONS", "/flush", fun _ => "", "192.0.2.1:4096"⟩
        ⟨newResponseWriter, [], ()⟩).sentHeader "Access-Control-Allow-Origin" = none) ∧
    (∃ chain, ("/health", some chain) ∈ api.RegisterEndPoints ⟨"secret"⟩
        (⟨fun _ x => x, fun _ x => x, fun _ x => x, fun _ x => x, fun _ x => x,
          fun _ x => x, fun _ x => x, fun _ x => x⟩ : handler.Handler Unit) ∧
      (chain ⟨"OPTIONS", "/health", fun _ => "", "192.0.2.1:4096"⟩
        ⟨newResponseWriter, [], ()⟩).status = some 200 ∧
      (chain ⟨"OPTIONS", "/health", fun _ => "", "192.0.2.1:4096"⟩
        ⟨newResponseWriter, [], ()⟩).sentHeader "Access-Control-Allow-Origin" =
        some "*") := by
  refine ⟨⟨TokenAuth ⟨"secret"⟩ (Logging (CORS (fun _ x => x))), ?_, ?_, ?_⟩,
    ⟨Logging (CORS (fun _ x => x)), ?_, ?_, ?_⟩⟩
  all_goals
    simp [api.RegisterEndPoints, sugarMFunc_auth, sugarMFunc_common, TokenAuth, Logging,
      CORS, Exchange.status, Exchange.sentHeader, http.Error, ResponseWriter.Write,
      ResponseWriter.WriteHeader, ResponseWriter.Set, newResponseWriter, Function.update]

theorem preflight_cors {σ : Type} (h : HandlerFunc σ) (r : Request) (x : Exchange σ)
    (hopt : r.Method = "OPTIONS") :
    Logging (CORS h) r x =
      { w := ((((x.w.Set "Access-Control-Allow-Origin" "*").Set
            "Access-Control-Allow-Methods" "GET, POST, PUT, DELETE, OPTIONS").Set
            "Access-Control-Allow-Headers" "Content-Type, Authorization, X-Auth-Token").Set
            "Content-Type" "application/json").WriteHeader 200,
        log := x.log ++ ["Received request", "Processed request"],
        store := x.store } := by
  simp [Logging, CORS, hopt]

/-- The preflights that reach `CORS`: for every endpoint registered by
`RegisterEndPoints` and every `OPTIONS` request that is not stopped by the
token check (the endpoint is `/` or `/health`, or the request carries the
configured token), on a response nothing was written to: the handler of the
endpoint is not called (the exchange after is the one below, whatever the
handler), the status is `200`, `Access-Control-Allow-Origin: *` is sent and
the store is unchanged. -/
theorem preflight_short_circuit {σ : Type} (md : Middleware) (hd : handler.Handler σ)
    (path : String) (chain : HandlerFunc σ) (r : Request) (x : Exchange σ)
    (hmem : (path, some chain) ∈ api.RegisterEndPoints md hd)
    (hopt : r.Method = "OPTIONS") (hw : x.w.wrote = none)
    (hpass : path = "/" ∨ path = "/health" ∨ r.Header "X-Auth-Token" = md.authToken) :
    chain r x =
      { w := ((((x.w.Set "Access-Control-Allow-Origin" "*").Set
            "Access-Control-Allow-Methods" "GET, POST, PUT, DELETE, OPTIONS").Set
            "Access-Control-Allow-Headers" "Content-Type, Authorization, X-Auth-Token").Set
            "Content-Type" "application/json").WriteHeader 200,
        log := x.log ++ ["Received request", "Processed request"],
        store := x.store } ∧
    (chain r x).status = some 200 ∧
    (chain r x).sentHeader "Access-Control-Allow-Origin" = some "*" ∧
    (chain r x).store = x.store := by
  have key : chain r x =
      { w := ((((x.w.Set "Access-Control-Allow-Origin" "*").Set
            "Access-Control-Allow-Methods" "GET, POST, PUT, DELETE, OPTIONS").Set
            "Access-Control-Allow-Headers" "Content-Type, Authorization, X-Auth-Token").Set
            "Content-Type" "application/json").WriteHeader 200,
        log := x.log ++ ["Received request", "Processed request"],
        store := x.store } := by
    simp only [api.RegisterEndPoints, sugarMFunc_auth, sugarMFunc_common, List.mem_cons,
      Prod.mk.injEq, Option.some.injEq, List.mem_nil_iff, or_false] at hmem
    rcases hmem with ⟨hp, hc⟩ | ⟨hp, hc⟩ | ⟨hp, hc⟩ | ⟨hp, hc⟩ | ⟨hp, hc⟩ | ⟨hp, hc⟩ |
      ⟨hp, hc⟩ | ⟨hp, hc⟩
    all_goals subst hp hc
    all_goals first
      | exact preflight_cors _ r x hopt
      | (have htok : r.Header "X-Auth-Token" = md.authToken := by
          rcases hpass with h1 | h1 | h1
          · exact absurd h1 (by decide)
          · exact absurd h1 (by decide)
          · exact h1
         have hta : ∀ next : HandlerFunc σ, TokenAuth md next r x = next r x := by
          intro next
          simp [TokenAuth, htok]
         rw [hta]
         exact preflight_cors _ r x hopt)
  refine ⟨key, ?_, ?_, ?_⟩
  · rw [key]
    simp [Exchange.status, ResponseWriter.WriteHeader, ResponseWriter.Set, hw]
  · rw [key]
    simp [Exchange.sentHeader, ResponseWriter.WriteHeader, ResponseWriter.Set, hw,
      Function.update]
  · rw [key]

/-- The preflight that carries the token, at a concrete exchange: token
`"secret"`, an `OPTIONS` request to `/flush` with the token, a store holding
`"ab12cd"`, and the handler `FlushHandler`. -/
theorem preflight_short_circuit_witness :
    ("/flush", some (TokenAuth ⟨"secret"⟩ (Logging (CORS
        (handler.FlushHandler (fun _ => "backup")))))) ∈
      api.RegisterEndPoints ⟨"secret"⟩
        (⟨fun _ x => x, fun _ x => x, fun _ x => x, fun _ x => x,
          handler.FlushHandler (fun _ => "backup"), fun _ x => x, fun _ x => x,
          fun _ x => x⟩ : handler.Handler memory.URLStore) ∧
    (⟨"OPTIONS", "/flush", fun _ => "secret", "192.0.2.1:4096"⟩ : Request).Method =
      "OPTIONS" ∧
    (TokenAuth ⟨"secret"⟩ (Logging (CORS (handler.FlushHandler (fun _ => "backup"))))
        ⟨"OPTIONS", "/flush", fun _ => "secret", "192.0.2.1:4096"⟩
        ⟨newResponseWriter, [],
          (memory.Save memory.NewURLStore "ab12cd" "https://example.com").2⟩).status =
      some 200 ∧
    (TokenAuth ⟨"secret"⟩ (Logging (CORS (handler.FlushHandler (fun _ => "backup"))))
        ⟨"OPTIONS", "/flush", fun _ => "secret", "192.0.2.1:4096"⟩
        ⟨newResponseWriter, [],
          (memory.Save memory.NewURLStore "ab12cd" "https://example.com").2⟩).store =
      (memory.Save memory.NewURLStore "ab12cd" "https://example.com").2 :=
  have hmem : ("/flush", some (TokenAuth ⟨"secret"⟩ (Logging (CORS
        (handler.FlushHandler (fun _ => "backup")))))) ∈
      api.RegisterEndPoints ⟨"secret"⟩
        (⟨fun _ x => x, fun _ x => x, fun _ x => x, fun _ x => x,
          handler.FlushHandler (fun _ => "backup"), fun _ x => x, fun _ x => x,
          fun _ x => x⟩ : handler.Handler memory.URLStore) := by
    simp [api.RegisterEndPoints, sugarMFunc_auth]
  have hall := preflight_short_circuit ⟨"secret"⟩ _ "/flush" _
    ⟨"OPTIONS", "/flush", fun _ => "secret", "192.0.2.1:4096"⟩
    ⟨newResponseWriter, [], (memory.Save memory.NewURLStore "ab12cd" "https://example.com").2⟩
    hmem rfl rfl (Or.inr (Or.inr rfl))
  ⟨hmem, rfl, hall.2.1, hall.2.2.2⟩

end middleware

/-! ## Properties of the geolocation lookup -/

namespace utils

/-- Every failure before the fields are read gives the label "Unknown": an
error of `http.Get`, of `io.ReadAll` or of `json.Unmarshal`, and a `status`
that is absent, not a string, or not "success". -/
theorem getGeoLocation_unknown (get : String → Fetched)
    (unmarshal : List (Fin 256) → Except String (String → Option JSONValue))
    (ip : String) :
    (∀ err, get ("http://ip-api.com/json/" ++ ip) = .getFailed err →
      GetGeoLocation get unmarshal ip = .label "Unknown") ∧
    (∀ err, get ("http://ip-api.com/json/" ++ ip) = .readFailed err →
      GetGeoLocation get unmarshal ip = .label "Unknown") ∧
    (∀ body err, get ("http://ip-api.com/json/" ++ ip) = .body body →
      unmarshal body = .error err → GetGeoLocation get unmarshal ip = .label "Unknown") ∧
    (∀ body result, get ("http://ip-api.com/json/" ++ ip) = .body body →
      unmarshal body = .ok result → result "status" ≠ some (.string "success") →
      GetGeoLocation get unmarshal ip = .label "Unknown") := by
  refine ⟨?_, ?_, ?_, ?_⟩
  · intro err h
    simp [GetGeoLocation, h]
  · intro err h
    simp [GetGeoLocation, h]
  · intro body err h hu
    simp [GetGeoLocation, h, hu]
  · intro body result h hu hs
    simp only [GetGeoLocation, h, hu]
    cases hst : result "status" with
    | none => rfl
    | some v =>
      cases v with
      | string status =>
        have : status ≠ "success" := by
          intro heq
          exact hs (by rw [hst, heq])
        simp [this]
      | _ => rfl

/-- C12, at its failing input: when the body decodes to an object whose
`status` is "success" and that has no `city` (or a `city` that is not a
string, or no `country`), the type assertion of `GetGeoLocation` panics; no
label is returned. -/
theorem getGeoLocation_panics_without_city :
    GetGeoLocation (fun _ => .body [])
      (fun _ => .ok (fun k => if k = "status" then some (.string "success") else none))
      "1.2.3.4" = .panicked ∧
    GetGeoLocation (fun _ => .body [])
      (fun _ => .ok (fun k =>
        if k = "status" then some (.string "success")
        else if k = "city" then some (.number "42") else none))
      "1.2.3.4" = .panicked ∧
    GetGeoLocation (fun _ => .body [])
      (fun _ => .ok (fun k =>
        if k = "status" then some (.string "success")
        else if k = "city" then some (.string "Lisbon") else none))
      "1.2.3.4" = .panicked := by
  refine ⟨?_, ?_, ?_⟩ <;> simp [GetGeoLocation]

end utils

/-! ## Locality of the in-memory store -/

namespace memory

/-- C19. Locality: for aliases `B ≠ A`, each of `Save A`, `UpdateURL A` and
`UpdateStats A` leaves the mapping of `B` and the statistics of `B` as they
were, in every store state. -/
theorem other_alias_untouched (s : URLStore) (A B U new ip referrer geo : String)
    (h : B ≠ A) :
    ((Save s A U).2.urls B = s.urls B ∧ (Save s A U).2.stats B = s.stats B) ∧
    ((UpdateURL s A new).2.urls B = s.urls B ∧ (UpdateURL s A new).2.stats B = s.stats B) ∧
    ((UpdateStats s A ip referrer geo).2.urls B = s.urls B ∧
      (UpdateStats s A ip referrer geo).2.stats B = s.stats B) := by
  refine ⟨?_, ?_, ?_⟩
  · simp [Save, Function.update_noteq h]
  · unfold UpdateURL
    cases s.urls A <;> simp [Function.update_noteq h]
  · unfold UpdateStats
    cases s.stats A <;> simp [Function.update_noteq h]

/-- C19, at a concrete store: `"keep"` was saved and visited, then `"ab12cd"`
is saved, updated and visited. -/
theorem other_alias_untouched_witness :
    "keep" ≠ "ab12cd" ∧
    (UpdateStats (UpdateStats (Save (Save NewURLStore "keep" "https://k.example").2
        "ab12cd" "https://a.example").2 "keep" "9.9.9.9" "http://r" "Town").2
      "ab12cd" "1.2.3.4" "http://ref" "City").2.stats "keep" =
      (UpdateStats (Save (Save NewURLStore "keep" "https://k.example").2
        "ab12cd" "https://a.example").2 "keep" "9.9.9.9" "http://r" "Town").2.stats "keep" :=
  ⟨by decide,
    (other_alias_untouched
      (UpdateStats (Save (Save NewURLStore "keep" "https://k.example").2
        "ab12cd" "https://a.example").2 "keep" "9.9.9.9" "http://r" "Town").2
      "ab12cd" "keep" "https://u.example" "https://n.example" "1.2.3.4" "http://ref" "City"
      (by decide)).2.2.2⟩

end memory

/-! ## Injectivity of the short code -/

namespace utils

theorem encodeAt_injective :
    ∀ i, i < 64 → ∀ j, j < 64 → encodeAt i = encodeAt j → i = j := by
  decide

theorem mask_eq_mod (v : Nat) : v &&& 0x3F = v % 64 :=
  Nat.and_pow_two_sub_one_eq_mod v 6

theorem group_eq (b0 b1 b2 : Nat) (h1 : b1 < 256) (h2 : b2 < 256) :
    b0 <<< 16 ||| b1 <<< 8 ||| b2 = b0 * 65536 + b1 * 256 + b2 := by
  have e1 : b0 <<< 16 ||| b1 <<< 8 = 2 ^ 8 * (b0 * 256 + b1) := by
    rw [Nat.shiftLeft_eq, Nat.shiftLeft_eq]
    have h : 2 ^ 16 * b0 + b1 * 2 ^ 8 = 2 ^ 16 * b0 ||| b1 * 2 ^ 8 :=
      Nat.mul_add_lt_is_or (by omega) b0
    rw [Nat.mul_comm b0 (2 ^ 16), ← h]
    omega
  rw [e1, ← Nat.mul_add_lt_is_or (by omega) (b0 * 256 + b1)]
  omega

theorem encodeAt_mask_inj (v w : Nat) (h : encodeAt (v &&& 0x3F) = encodeAt (w &&& 0x3F)) :
    v % 64 = w % 64 := by
  rw [mask_eq_mod, mask_eq_mod] at h
  exact encodeAt_injective _ (Nat.mod_lt _ (by decide)) _ (Nat.mod_lt _ (by decide)) h

theorem code_injective (a0 a1 a2 a3 b0 b1 b2 b3 : Fin 256)
    (h : (encode [a0, a1, a2, a3]).take 6 = (encode [b0, b1, b2, b3]).take 6) :
    a0 = b0 ∧ a1 = b1 ∧ a2 = b2 ∧ a3 = b3 := by
  simp only [encode_four, List.take_succ_cons, List.take_zero, List.cons.injEq,
    and_true] at h
  obtain ⟨h0, h1, h2, h3, h4, h5⟩ := h
  have k0 := encodeAt_mask_inj _ _ h0
  have k1 := encodeAt_mask_inj _ _ h1
  have k2 := encodeAt_mask_inj _ _ h2
  have k3 := encodeAt_mask_inj _ _ h3
  have k4 := encodeAt_mask_inj _ _ h4
  have k5 := encodeAt_mask_inj _ _ h5
  rw [group_eq _ _ _ a1.isLt a2.isLt, group_eq _ _ _ b1.isLt b2.isLt,
    Nat.shiftRight_eq_div_pow] at k0 k1 k2
  rw [group_eq _ _ _ a1.isLt a2.isLt, group_eq _ _ _ b1.isLt b2.isLt] at k3
  rw [Nat.shiftLeft_eq, Nat.shiftLeft_eq, Nat.shiftRight_eq_div_pow] at k4 k5
  have ha0 := a0.isLt
  have ha1 := a1.isLt
  have ha2 := a2.isLt
  have ha3 := a3.isLt
  have hb0 := b0.isLt
  have hb1 := b1.isLt
  have hb2 := b2.isLt
  have hb3 := b3.isLt
  norm_num at k0 k1 k2 k3 k4 k5
  refine ⟨Fin.ext ?_, Fin.ext ?_, Fin.ext ?_, Fin.ext ?_⟩ <;> omega

/-- C20. Injectivity of the short code: two 4-byte values whose URL-safe base64
encodings have the same first 6 characters are equal, so `GenerateShortURL`
returns different codes for different bytes, and the codes of all 4-byte
values are `2 ^ 32` in number. -/
theorem generateShortURL_injective (b1 b2 : List (Fin 256))
    (h1 : b1.length = 4) (h2 : b2.length = 4) :
    ((EncodeToString b1).data.take 6 = (EncodeToString b2).data.take 6 → b1 = b2) ∧
    (GenerateShortURL (.ok b1) = GenerateShortURL (.ok b2) → b1 = b2) ∧
    (Finset.univ.image (fun b : Fin 256 × Fin 256 × Fin 256 × Fin 256 =>
      GenerateShortURL (.ok [b.1, b.2.1, b.2.2.1, b.2.2.2]))).card = 2 ^ 32 := by
  have key : ∀ c1 c2 : List (Fin 256), c1.length = 4 → c2.length = 4 →
      (EncodeToString c1).data.take 6 = (EncodeToString c2).data.take 6 → c1 = c2 := by
    intro c1 c2 hc1 hc2 h
    match c1, hc1, c2, hc2, h with
    | [x0, x1, x2, x3], _, [y0, y1, y2, y3], _, h =>
      obtain ⟨e0, e1, e2, e3⟩ := code_injective x0 x1 x2 x3 y0 y1 y2 y3 h
      rw [e0, e1, e2, e3]
  have gen : ∀ c1 c2 : List (Fin 256), c1.length = 4 → c2.length = 4 →
      GenerateShortURL (.ok c1) = GenerateShortURL (.ok c2) → c1 = c2 := by
    intro c1 c2 hc1 hc2 h
    have l1 : 6 ≤ (EncodeToString c1).length := by
      match c1, hc1 with
      | [x0, x1, x2, x3], _ => simp [EncodeToString, String.length, encode_four]
    have l2 : 6 ≤ (EncodeToString c2).length := by
      match c2, hc2 with
      | [x0, x1, x2, x3], _ => simp [EncodeToString, String.length, encode_four]
    simp only [GenerateShortURL, l1, l2, if_true, Generated.code.injEq] at h
    exact key c1 c2 hc1 hc2 (congrArg String.data h)
  refine ⟨key b1 b2 h1 h2, gen b1 b2 h1 h2, ?_⟩
  rw [Finset.card_image_of_injective]
  · rw [Finset.card_univ]
    simp only [Fintype.card_prod, Fintype.card_fin]
    norm_num
  · intro x y hxy
    have := gen [x.1, x.2.1, x.2.2.1, x.2.2.2] [y.1, y.2.1, y.2.2.1, y.2.2.2] rfl rfl hxy
    simp only [List.cons.injEq, and_true] at this
    obtain ⟨e0, e1, e2, e3⟩ := this
    exact Prod.ext e0 (Prod.ext e1 (Prod.ext e2 e3))

/-- C20, at the bytes `00 00 00 00` and `00 00 00 01`. -/
theorem generateShortURL_injective_witness :
    ([0, 0, 0, 0] : List (Fin 256)).length = 4 ∧
    ([0, 0, 0, 1] : List (Fin 256)).length = 4 ∧
    (GenerateShortURL (.ok [0, 0, 0, 0]) = GenerateShortURL (.ok [0, 0, 0, 1]) →
      ([0, 0, 0, 0] : List (Fin 256)) = [0, 0, 0, 1]) :=
  ⟨rfl, rfl, (generateShortURL_injective [0, 0, 0, 0] [0, 0, 0, 1] rfl rfl).2.1⟩

end utils

/-! ## Properties of the SQLite engine -/

namespace sqlite

theorem splitString_joinStrings (l : List String) (hne : l ≠ [])
    (hc : ∀ s ∈ l, ',' ∉ s.data) : splitString (joinStrings l) = l := by
  unfold splitString joinStrings
  have h1 : ∀ d ∈ l.map String.data, ',' ∉ d := by
    intro d hd
    obtain ⟨s, hs, rfl⟩ := List.mem_map.mp hd
    exact hc s hs
  have h2 : l.map String.data ≠ [] := by
    intro h
    exact hne (List.map_eq_nil_iff.mp h)
  show List.map String.mk (List.splitOn ',' ([','].intercalate (l.map String.data))) = l
  rw [List.splitOn_intercalate _ ',' h1 h2, List.map_map]
  exact List.map_id _

theorem appendWithLimit_of_ne (list : List String) (item : String) (h : item ≠ "") :
    appendWithLimit list item 5 = memory.appendLast5 list item := by
  simp [appendWithLimit, memory.appendLast5, h]

theorem lastN_ne_nil (l : List String) (h : l ≠ []) : memory.lastN 5 l ≠ [] := by
  intro hn
  have hlen := congrArg List.length hn
  have hpos : 0 < l.length := List.length_pos.mpr h
  simp only [memory.lastN, List.length_drop, List.length_nil] at hlen
  omega

theorem db_updateStatsAll_snoc {Doc : Type} (marshal : URLStats → Except String Doc)
    (unmarshal : Doc → Except String URLStats) (db : DB) (A : String)
    (calls : List memory.StatsCall) (c : memory.StatsCall) :
    updateStatsAll marshal unmarshal db A (calls ++ [c]) =
      (UpdateStats marshal unmarshal (updateStatsAll marshal unmarshal db A calls) A
        c.ip c.referrer c.geoLocation).2 := by
  simp [updateStatsAll, List.foldl_append]

end sqlite

namespace sqlite

/-- What `UpdateStats` does to a database that has a `url_stats` row for the
alias, when `encoding/json` gives back the struct it encoded. -/
theorem updateStats_of_row {Doc : Type} (marshal : URLStats → Except String Doc)
    (unmarshal : Doc → Except String URLStats)
    (hrt : ∀ st, ∃ rr, marshal st = .ok rr ∧ unmarshal rr = .ok st)
    (db : DB) (A ip referrer geo : String) (row : StatsRow)
    (hrow : db.url_stats A = some row) :
    UpdateStats marshal unmarshal db A ip referrer geo =
      (none, { db with
        url_stats := Function.update db.url_stats A (some (nextRow row ip referrer geo)) }) := by
  obtain ⟨rr, hm, hu⟩ := hrt
    { Count := row.count, LastIPs := splitString row.last_ips,
      Referrers := splitString row.referrers, LastGeoLocation := row.last_geo_location }
  simp only [UpdateStats, GetStats, scanStats, hrow, hm, hu, nextRow]

/-- The `url_stats` row of an alias after any calls of `UpdateStats` on it. -/
theorem url_stats_after_calls {Doc : Type} (marshal : URLStats → Except String Doc)
    (unmarshal : Doc → Except String URLStats)
    (hrt : ∀ st, ∃ rr, marshal st = .ok rr ∧ unmarshal rr = .ok st)
    (db : DB) (A : String) (row : StatsRow) (calls : List memory.StatsCall)
    (hrow : db.url_stats A = some row) :
    (updateStatsAll marshal unmarshal db A calls).url_stats A =
      some (calls.foldl (fun r c => nextRow r c.ip c.referrer c.geoLocation) row) := by
  induction calls using List.reverseRecOn with
  | nil => simpa [updateStatsAll] using hrow
  | append_singleton calls c ih =>
    rw [db_updateStatsAll_snoc, updateStats_of_row marshal unmarshal hrt _ A _ _ _ _ ih,
      List.foldl_append]
    simp

theorem last_ips_after_save {Doc : Type} (marshal : URLStats → Except String Doc)
    (unmarshal : Doc → Except String URLStats)
    (hrt : ∀ st, ∃ rr, marshal st = .ok rr ∧ unmarshal rr = .ok st)
    (A U : String) (calls : List memory.StatsCall)
    (hips : ∀ c ∈ calls, c.ip ≠ "" ∧ ',' ∉ c.ip.data) :
    ∃ row, (updateStatsAll marshal unmarshal (Save NewURLStore A U).2 A calls).url_stats A =
        some row ∧
      row.last_ips = joinStrings (memory.lastN 5 ("" :: calls.map (·.ip))) := by
  induction calls using List.reverseRecOn with
  | nil =>
    exact ⟨{ count := 0, last_ips := "", referrers := "", last_geo_location := "" },
      by simp [updateStatsAll, Save, NewURLStore], rfl⟩
  | append_singleton calls c ih =>
    obtain ⟨row, hrow, hlast⟩ := ih (fun d hd => hips d (List.mem_append_left _ hd))
    obtain ⟨hne, hcomma⟩ := hips c (List.mem_append_right _ (List.mem_singleton_self c))
    rw [db_updateStatsAll_snoc, updateStats_of_row marshal unmarshal hrt _ A _ _ _ row hrow]
    refine ⟨nextRow row c.ip c.referrer c.geoLocation, Function.update_same _ _ _, ?_⟩
    have hmem : ∀ s ∈ memory.lastN 5 ("" :: calls.map (·.ip)), ',' ∉ s.data := by
      intro s hs
      have hs' : s ∈ "" :: calls.map (·.ip) := List.mem_of_mem_drop hs
      rcases List.mem_cons.mp hs' with rfl | hs''
      · simp
      · obtain ⟨d, hd, rfl⟩ := List.mem_map.mp hs''
        exact (hips d (List.mem_append_left _ hd)).2
    show joinStrings (appendWithLimit (splitString row.last_ips) c.ip 5) = _
    rw [hlast, splitString_joinStrings _ (lastN_ne_nil _ (List.cons_ne_nil _ _)) hmem,
      appendWithLimit_of_ne _ _ hne, memory.appendLast5_lastN]
    simp

/-- C13, at its scenario: on the SQLite engine, `Save` on the empty database and
`Get` give the URL back with `true`, and after the three `UpdateStats` calls the
struct `GetStats` encodes has count 3 and "City, Country", but its `last_ips`
are `""` followed by three times "1.2.3.4" (and likewise its referrers), where
the in-memory store has the three IPs only. -/
theorem sqlite_end_to_end {Doc : Type} (marshal : URLStats → Except String Doc)
    (unmarshal : Doc → Except String URLStats)
    (hrt : ∀ st, ∃ rr, marshal st = .ok rr ∧ unmarshal rr = .ok st) :
    Save NewURLStore "ab12cd" "https://example.com" =
      (none, (Save NewURLStore "ab12cd" "https://example.com").2) ∧
    Get (Save NewURLStore "ab12cd" "https://example.com").2 "ab12cd" =
      ("https://example.com", true) ∧
    scanStats (updateStatsAll marshal unmarshal
        (Save NewURLStore "ab12cd" "https://example.com").2 "ab12cd"
        [⟨"1.2.3.4", "http://ref", "City, Country"⟩,
         ⟨"1.2.3.4", "http://ref", "City, Country"⟩,
         ⟨"1.2.3.4", "http://ref", "City, Country"⟩]) "ab12cd" = some
      { Count := 3, LastIPs := ["", "1.2.3.4", "1.2.3.4", "1.2.3.4"],
        Referrers := ["", "http://ref", "http://ref", "http://ref"],
        LastGeoLocation := "City, Country" } ∧
    (memory.updateStatsAll
        (memory.Save memory.NewURLStore "ab12cd" "https://example.com").2 "ab12cd"
        [⟨"1.2.3.4", "http://ref", "City, Country"⟩,
         ⟨"1.2.3.4", "http://ref", "City, Country"⟩,
         ⟨"1.2.3.4", "http://ref", "City, Country"⟩]).stats "ab12cd" = some
      { Count := 3, LastIPs := ["1.2.3.4", "1.2.3.4", "1.2.3.4"],
        Referrers := ["http://ref", "http://ref", "http://ref"],
        LastGeoLocation := "City, Country" } := by
  refine ⟨rfl, rfl, ?_, ?_⟩
  · have h0 : (Save NewURLStore "ab12cd" "https://example.com").2.url_stats "ab12cd" =
        some { count := 0, last_ips := "", referrers := "", last_geo_location := "" } := by
      simp [Save, NewURLStore]
    simp only [scanStats, url_stats_after_calls marshal unmarshal hrt _ _ _ _ h0]
    decide
  · rw [memory.stats_after_save]
    have h3 : memory.wrapInt 3 = 3 := by
      simp only [memory.wrapInt, memory.intBits]
      norm_num
    simp [memory.lastN, h3]

end sqlite

namespace sqlite

/-- C13, with `encoding/json` as the identity on the struct. -/
theorem sqlite_end_to_end_witness :
    (∀ st : URLStats, ∃ rr, (Except.ok st : Except String URLStats) = .ok rr ∧
      (Except.ok rr : Except String URLStats) = .ok st) ∧
    scanStats (updateStatsAll (Except.ok : URLStats → Except String URLStats) Except.ok
        (Save NewURLStore "ab12cd" "https://example.com").2 "ab12cd"
        [⟨"1.2.3.4", "http://ref", "City, Country"⟩,
         ⟨"1.2.3.4", "http://ref", "City, Country"⟩,
         ⟨"1.2.3.4", "http://ref", "City, Country"⟩]) "ab12cd" = some
      { Count := 3, LastIPs := ["", "1.2.3.4", "1.2.3.4", "1.2.3.4"],
        Referrers := ["", "http://ref", "http://ref", "http://ref"],
        LastGeoLocation := "City, Country" } :=
  ⟨fun st => ⟨st, rfl, rfl⟩,
    (sqlite_end_to_end (Except.ok : URLStats → Except String URLStats) Except.ok
      (fun st => ⟨st, rfl, rfl⟩)).2.2.1⟩

/-- C14, at its failing input: `UpdateURL` of an alias that has no row returns
the nil error, on the empty database as on every other; the tables stay as
they are. -/
theorem sqlite_updateURL_missing_alias :
    UpdateURL NewURLStore "ab12cd" "https://new.example" = (none, NewURLStore) ∧
    (∀ (db : DB) (A new : String), (UpdateURL db A new).1 = none) ∧
    (∀ (db : DB) (A new : String), db.urls A = none → (UpdateURL db A new).2 = db) := by
  refine ⟨rfl, ?_, ?_⟩
  · intro db A new
    unfold UpdateURL
    cases db.urls A <;> rfl
  · intro db A new h
    simp [UpdateURL, h]

/-- C15, at its failing input: `Save` of an alias that has a row in `urls`
returns the error of the `INSERT` and changes nothing, so `Get` still returns
the old URL. -/
theorem sqlite_save_existing_alias :
    Save (Save NewURLStore "ab12cd" "https://a.example").2 "ab12cd" "https://b.example" =
      (some "UNIQUE constraint failed: urls.short_url",
        (Save NewURLStore "ab12cd" "https://a.example").2) ∧
    Get (Save (Save NewURLStore "ab12cd" "https://a.example").2
      "ab12cd" "https://b.example").2 "ab12cd" = ("https://a.example", true) ∧
    (∀ (db : DB) (A U old : String), db.urls A = some old →
      Save db A U = (some "UNIQUE constraint failed: urls.short_url", db)) ∧
    (∀ (db : DB) (A U : String), db.urls A = none → db.url_stats A = none →
      (Save db A U).1 = none ∧ Get (Save db A U).2 A = (U, true) ∧
      (Save db A U).2.url_stats A =
        some { count := 0, last_ips := "", referrers := "", last_geo_location := "" }) := by
  refine ⟨?_, ?_, ?_, ?_⟩
  · simp [Save, NewURLStore]
  · simp [Save, NewURLStore, Get]
  · intro db A U old h
    simp [Save, h]
  · intro db A U h1 h2
    simp [Save, h1, h2, Get]

/-- C16. Bounded history on the SQLite engine: after `Save A U` on the empty
database and more than 5 calls of `UpdateStats` on `A` whose IPs are non-empty
and contain no comma, the struct `GetStats` encodes has as `last_ips` exactly
the last 5 IPs passed, oldest first (`encoding/json` giving back the struct it
encoded). -/
theorem sqlite_lastIPs_bounded_history {Doc : Type}
    (marshal : URLStats → Except String Doc) (unmarshal : Doc → Except String URLStats)
    (hrt : ∀ st, ∃ rr, marshal st = .ok rr ∧ unmarshal rr = .ok st)
    (A U : String) (calls : List memory.StatsCall)
    (hips : ∀ c ∈ calls, c.ip ≠ "" ∧ ',' ∉ c.ip.data)
    (hn : 5 < calls.length) :
    ∃ st rr,
      scanStats (updateStatsAll marshal unmarshal (Save NewURLStore A U).2 A calls) A =
        some st ∧
      marshal st = .ok rr ∧
      GetStats marshal (updateStatsAll marshal unmarshal (Save NewURLStore A U).2 A calls) A =
        some rr ∧
      st.LastIPs = (calls.map (·.ip)).drop (calls.length - 5) ∧
      st.LastIPs.length = 5 := by
  obtain ⟨row, hrow, hlast⟩ := last_ips_after_save marshal unmarshal hrt A U calls hips
  have hmem : ∀ s ∈ memory.lastN 5 ("" :: calls.map (·.ip)), ',' ∉ s.data := by
    intro s hs
    have hs' : s ∈ "" :: calls.map (·.ip) := List.mem_of_mem_drop hs
    rcases List.mem_cons.mp hs' with rfl | hs''
    · simp
    · obtain ⟨d, hd, rfl⟩ := List.mem_map.mp hs''
      exact (hips d hd).2
  have hsplit : splitString row.last_ips = (calls.map (·.ip)).drop (calls.length - 5) := by
    rw [hlast, splitString_joinStrings _ (lastN_ne_nil _ (List.cons_ne_nil _ _)) hmem]
    have e : ("" :: calls.map (·.ip)).length - 5 = (calls.length - 5) + 1 := by
      simp only [List.length_cons, List.length_map]
      omega
    simp only [memory.lastN, e, List.drop_succ_cons]
  obtain ⟨rr, hm, _⟩ := hrt
    { Count := row.count, LastIPs := splitString row.last_ips,
      Referrers := splitString row.referrers, LastGeoLocation := row.last_geo_location }
  refine ⟨_, rr, by simp only [scanStats, hrow], hm, by simp only [GetStats, scanStats, hrow, hm],
    hsplit, ?_⟩
  show (splitString row.last_ips).length = 5
  rw [hsplit, List.length_drop, List.length_map]
  omega

/-- C16, at six calls with the IPs `10.0.0.1` to `10.0.0.6`, `encoding/json`
being the identity on the struct. -/
theorem sqlite_lastIPs_bounded_history_witness :
    (∀ c ∈ ([⟨"10.0.0.1", "", "A"⟩, ⟨"10.0.0.2", "", "A"⟩, ⟨"10.0.0.3", "", "A"⟩,
        ⟨"10.0.0.4", "", "A"⟩, ⟨"10.0.0.5", "", "A"⟩, ⟨"10.0.0.6", "", "A"⟩] :
        List memory.StatsCall), c.ip ≠ "" ∧ ',' ∉ c.ip.data) ∧
    5 < ([⟨"10.0.0.1", "", "A"⟩, ⟨"10.0.0.2", "", "A"⟩, ⟨"10.0.0.3", "", "A"⟩,
        ⟨"10.0.0.4", "", "A"⟩, ⟨"10.0.0.5", "", "A"⟩, ⟨"10.0.0.6", "", "A"⟩] :
        List memory.StatsCall).length ∧
    ∃ st rr,
      scanStats (updateStatsAll (Except.ok : URLStats → Except String URLStats) Except.ok
        (Save NewURLStore "ab12cd" "https://example.com").2 "ab12cd"
        [⟨"10.0.0.1", "", "A"⟩, ⟨"10.0.0.2", "", "A"⟩, ⟨"10.0.0.3", "", "A"⟩,
         ⟨"10.0.0.4", "", "A"⟩, ⟨"10.0.0.5", "", "A"⟩, ⟨"10.0.0.6", "", "A"⟩]) "ab12cd" =
        some st ∧
      (Except.ok st : Except String URLStats) = .ok rr ∧
      GetStats (Except.ok : URLStats → Except String URLStats)
        (updateStatsAll (Except.ok : URLStats → Except String URLStats) Except.ok
        (Save NewURLStore "ab12cd" "https://example.com").2 "ab12cd"
        [⟨"10.0.0.1", "", "A"⟩, ⟨"10.0.0.2", "", "A"⟩, ⟨"10.0.0.3", "", "A"⟩,
         ⟨"10.0.0.4", "", "A"⟩, ⟨"10.0.0.5", "", "A"⟩, ⟨"10.0.0.6", "", "A"⟩]) "ab12cd" =
        some rr ∧
      st.LastIPs = (([⟨"10.0.0.1", "", "A"⟩, ⟨"10.0.0.2", "", "A"⟩, ⟨"10.0.0.3", "", "A"⟩,
        ⟨"10.0.0.4", "", "A"⟩, ⟨"10.0.0.5", "", "A"⟩, ⟨"10.0.0.6", "", "A"⟩] :
        List memory.StatsCall).map (·.ip)).drop
          (([⟨"10.0.0.1", "", "A"⟩, ⟨"10.0.0.2", "", "A"⟩, ⟨"10.0.0.3", "", "A"⟩,
            ⟨"10.0.0.4", "", "A"⟩, ⟨"10.0.0.5", "", "A"⟩, ⟨"10.0.0.6", "", "A"⟩] :
            List memory.StatsCall).length - 5) ∧
      st.LastIPs.length = 5 :=
  have hips : ∀ c ∈ ([⟨"10.0.0.1", "", "A"⟩, ⟨"10.0.0.2", "", "A"⟩, ⟨"10.0.0.3", "", "A"⟩,
      ⟨"10.0.0.4", "", "A"⟩, ⟨"10.0.0.5", "", "A"⟩, ⟨"10.0.0.6", "", "A"⟩] :
      List memory.StatsCall), c.ip ≠ "" ∧ ',' ∉ c.ip.data := by decide
  ⟨hips, by decide,
    sqlite_lastIPs_bounded_history (Except.ok : URLStats → Except String URLStats) Except.ok
      (fun st => ⟨st, rfl, rfl⟩)
      "ab12cd" "https://example.com" _ hips (by decide)⟩

end sqlite

/-! ## The list encoding of the SQLite engine -/

namespace sqlite

/-- Outside the domain of the round trip: the empty list comes back as a list
of one empty string, and an element with a comma comes back in two pieces. -/
theorem splitString_joinStrings_outside :
    splitString (joinStrings []) = [""] ∧
    splitString (joinStrings ["a,b", "c"]) = ["a", "b", "c"] := by
  constructor <;> decide

/-- C21. Round trip of the list encoding: for every non-empty list `l` of
strings none of which contains a comma, `splitString (joinStrings l) = l`. -/
theorem split_join_roundtrip (l : List String) (hne : l ≠ [])
    (hc : ∀ s ∈ l, ',' ∉ s.data) :
    splitString (joinStrings l) = l := by
  have hdata : ∀ d ∈ l.map String.data, ',' ∉ d := by
    intro d hd
    obtain ⟨s, hs, rfl⟩ := List.mem_map.mp hd
    exact hc s hs
  have hmap : l.map String.data ≠ [] := fun h => hne (List.map_eq_nil_iff.mp h)
  show List.map String.mk (List.splitOn ',' ([','].intercalate (l.map String.data))) = l
  rw [List.splitOn_intercalate _ ',' hdata hmap, List.map_map]
  exact List.map_id l

/-- C21, at the list of an empty string and two IPs. -/
theorem split_join_roundtrip_witness :
    (["", "10.0.0.1", "10.0.0.2"] : List String) ≠ [] ∧
    (∀ s ∈ (["", "10.0.0.1", "10.0.0.2"] : List String), ',' ∉ s.data) ∧
    joinStrings ["", "10.0.0.1", "10.0.0.2"] = ",10.0.0.1,10.0.0.2" ∧
    splitString (joinStrings ["", "10.0.0.1", "10.0.0.2"]) = ["", "10.0.0.1", "10.0.0.2"] :=
  ⟨by decide, by decide, by decide,
    split_join_roundtrip ["", "10.0.0.1", "10.0.0.2"] (by decide) (by decide)⟩

end sqlite
